import Mathlib

/-!
# Dimensional-metrics emitter (`pkg/integrations/outputhandler/v4/dm/emitter.go`)

A shallow embedding of the emitter of the infrastructure agent's protocol-v4 output
handler and of `Group.Run` (`pkg/integrations/execution/v4/runner/group.go`), and of the
facts their specification states about them.

Conventions of the embedding:

* a Go function with side effects on collaborators (plugin emitter, metrics sender, logger,
  goroutine launches) returns the ordered list of the calls it makes;
* collaborators whose code lives in other packages (`protocol`, `entity`, `feature_flags`,
  `encoding/json`, ...) are parameters of the definitions that call them;
* a Go `error` is either `nil` (`none`) or a value (`some _`).
-/

namespace DM

/-! ## Data model -/

/-- Go `error` values that `ParsePayloadV4` can hand back: the two package-level sentinels
created with `errors.New` (lines 35-36), and the errors produced by `encoding/json`, which are
values of that package and hence never identical to a sentinel. -/
inductive GoError where
  | ProtocolV4NotEnabledErr
  | NoContentToParseErr
  | json (msg : String)
  deriving DecidableEq, Repr

/-- Go `interface{}` values as they occur in a decoded event payload. -/
inductive Value where
  | null
  | bool (b : Bool)
  | number (n : Int)
  | string (s : String)
  | array (xs : List Value)
  | mapping (fields : List (String × Value))

/-- Go `protocol.EventData`, a `map[string]interface{}`, as an association list. -/
abbrev EventData := List (String × Value)

/-- Payload of `protocol.Common`; the emitter only passes it on. -/
structure Common where
  raw : String
  deriving DecidableEq, Repr

/-- Payload of one `protocol.Metric`; the emitter only passes it on. -/
structure Metric where
  raw : String
  deriving DecidableEq, Repr

/-- Payload of one `protocol.InventoryData` item; the emitter only passes it on. -/
structure InventoryData where
  raw : String
  deriving DecidableEq, Repr

/-- Go `entity.Fields`; only the name is read by the emitter. -/
structure EntityFields where
  Name : String
  deriving DecidableEq, Repr

/-- Go `protocol.Dataset`, with the fields the emitter reads. -/
structure Dataset where
  Common : Common
  Metrics : List Metric
  Entity : EntityFields
  Inventory : List (String × InventoryData)
  Events : List EventData
  IgnoreEntity : Bool

/-- Go `protocol.IntegrationMetadata`. -/
structure IntegrationMetadata where
  Name : String
  Version : String
  deriving DecidableEq, Repr

/-- Go `protocol.DataV4`. -/
structure DataV4 where
  PluginProtocolVersion : String
  Integration : IntegrationMetadata
  DataSets : List Dataset

/-- The Go zero value of `protocol.DataV4`. -/
def DataV4.zero : DataV4 :=
  { PluginProtocolVersion := "", Integration := { Name := "", Version := "" }, DataSets := [] }

/-! ## `ParsePayloadV4` -/

/-- Go `feature_flags.Retriever`: `GetFeatureFlag name` returns `(enabled, exists)`. -/
structure Retriever where
  GetFeatureFlag : String → Bool × Bool

/-- Calls `ParsePayloadV4` makes on its collaborators. -/
inductive ParseCall where
  | GetFeatureFlag (name : String)
  | Unmarshal (raw : List UInt8)
  deriving DecidableEq, Repr

/-- Result of `ParsePayloadV4`: the named results `dataV4` and `err`, and the collaborator
calls made on the way. -/
structure ParseResult where
  dataV4 : DataV4
  err : Option GoError
  calls : List ParseCall

/-- Go `ParsePayloadV4` (lines 271-284). `FlagProtocolV4` is the constant `fflag.FlagProtocolV4`
and `Unmarshal raw v` is `json.Unmarshal(raw, &v)`, returning the updated target and the error
message, if any. -/
def ParsePayloadV4 (FlagProtocolV4 : String)
    (Unmarshal : List UInt8 → DataV4 → DataV4 × Option String)
    (raw : List UInt8) (ffManager : Retriever) : ParseResult :=
  if raw.length = 0 then
    { dataV4 := DataV4.zero, err := some GoError.NoContentToParseErr, calls := [] }
  else
    let (enabled, ok) := ffManager.GetFeatureFlag FlagProtocolV4
    if !ok || !enabled then
      { dataV4 := DataV4.zero, err := some GoError.ProtocolV4NotEnabledErr,
        calls := [ParseCall.GetFeatureFlag FlagProtocolV4] }
    else
      let (dataV4, e) := Unmarshal raw DataV4.zero
      { dataV4 := dataV4, err := e.map GoError.json,
        calls := [ParseCall.GetFeatureFlag FlagProtocolV4, ParseCall.Unmarshal raw] }

/-! ## `composeEmitError` -/

/-- Go `s[:len(s)-1]`: a run-time panic (`none`) on the empty string, otherwise the string
without its last element. Go slices bytes; here the last character is dropped, which is the
same whenever that character is one byte long, as the `","` is that the loop of
`composeEmitError` leaves at the end. -/
def sliceButLast (s : String) : Option String :=
  if s.length = 0 then none else some (String.mk s.data.dropLast)

/-- The `for` loop of `composeEmitError` (lines 295-301): `composedError` is the text built so
far and `messages` the set of messages already seen (the keys of the Go map). An error is
represented by the text its `Error()` method returns. -/
def composeLoop : List String → String × List String → String × List String
  | [], st => st
  | msg :: rest, (composedError, messages) =>
    if msg ∈ messages then composeLoop rest (composedError, messages)
    else composeLoop rest (composedError ++ (msg ++ ","), msg :: messages)

/-- Go `composeEmitError` (lines 287-303). The outer `Option` is `none` when the final slice
expression panics; the inner one is the returned `error` (`none` for `nil`, `some text` for
`errors.New(text)`). `dataSetLength` is a Go `int`, rendered by `%d` in signed decimal. -/
def composeEmitError (emitErrs : List String) (dataSetLength : Int) : Option (Option String) :=
  if emitErrs.length = 0 then some none
  else
    let composedError := toString emitErrs.length ++ " out of " ++ toString dataSetLength
      ++ " datasets could not be emitted. Reasons: "
    let (composedError, _) := composeLoop emitErrs (composedError, [])
    (sliceButLast composedError).map some

/-- The distinct messages of a list, each kept at its first occurrence (the specification's
"de-duplicated failure messages"). -/
def distinctReasons : List String → List String
  | [] => []
  | msg :: rest => msg :: (distinctReasons rest).filter (fun m => m ≠ msg)

/-- The text `composeEmitError` starts its message with (the `Sprintf` of line 292) for `n`
errors and a dataset count of `dataSetLength`. -/
def emitErrorHeader (n : Nat) (dataSetLength : Int) : String :=
  toString n ++ " out of " ++ toString dataSetLength
    ++ " datasets could not be emitted. Reasons: "

/-- The characters of a list of reasons, each followed by a comma. -/
def trailing : List String → List Char
  | [] => []
  | r :: rs => r.data ++ ',' :: trailing rs

/-- The characters of a list of strings, each preceded by the separator `s`. -/
def separated (s : String) : List String → List Char
  | [] => []
  | a :: as => s.data ++ a.data ++ separated s as

/-! ## Emission of one dataset -/

/-- Go `map[string]string`. -/
abbrev Labels := List (String × String)

/-- Go `entity.ID`, an `int64`. -/
abbrev ID := Int

/-- Go `entity.Key`, a string. -/
abbrev Key := String

/-- Go `entity.Entity`, as built by `entity.New(key, id)`. -/
structure Entity where
  Key : Key
  ID : ID
  deriving DecidableEq, Repr

/-- Go `config.ExecutorConfig`-like part of a definition; only the user is read. -/
structure ExecutorConfig where
  User : String
  deriving DecidableEq, Repr

/-- Go `integration.Definition`, with the fields the emitter reads. -/
structure Definition where
  Name : String
  Interval : Int
  ExecutorConfig : ExecutorConfig
  deriving DecidableEq, Repr

/-- Go `fwrequest.FwRequestMeta`. -/
structure FwRequestMeta where
  Definition : Definition
  deriving DecidableEq, Repr

/-- Go `fwrequest.FwRequest`. -/
structure FwRequest where
  FwRequestMeta : FwRequestMeta
  Data : DataV4

/-- Go `fwrequest.EntityFwRequest`: a dataset with its request metadata and entity identifier
(returned by the method `ID()`). -/
structure EntityFwRequest where
  FwRequestMeta : FwRequestMeta
  Data : Dataset
  Integration : IntegrationMetadata
  entityID : ID

/-- Go method `EntityFwRequest.ID`. -/
def EntityFwRequest.ID (r : EntityFwRequest) : ID := r.entityID

/-- Go field promotion `r.Definition` through the embedded `FwRequestMeta`. -/
def EntityFwRequest.Definition (r : EntityFwRequest) : Definition := r.FwRequestMeta.Definition

/-- The functional options of `protocol.NewEventData` that `emitEvent` builds. -/
inductive Opt where
  | WithLabels (labels : Labels)
  | WithAnnotations (annotations : Labels)
  | WithEntity (e : Entity)
  | WithIntegrationUser (u : String)
  | WithEvents (event : EventData)
  | WithAttributes (a : List (String × Value))

/-- Go `agent.PluginEmitter` as built in `emitDataset` by `agent.NewExternalPluginCommon`. -/
structure PluginEmitter where
  PluginID : String
  Name : String
  deriving DecidableEq, Repr

/-- Result of `v3.BuildInventoryDataSet`; the emitter only passes it on. -/
structure PluginOutput where
  raw : String
  deriving DecidableEq, Repr

/-- Normalized metric produced by `IntegrationProcessor.ProcessMetrics`. -/
structure TelemetryMetric where
  raw : String
  deriving DecidableEq, Repr

/-- Go `IntegrationProcessor`, as filled in by `emitMetrics`. -/
structure IntegrationProcessor where
  IntegrationInterval : Int
  IntegrationLabels : Labels
  IntegrationExtraAnnotations : Labels
  deriving DecidableEq, Repr

/-- Calls the emission functions make on the plugin emitter, the metrics sender and the
logger, in program order. -/
inductive EmitCall where
  | EmitInventory (emitter : PluginEmitter) (data : PluginOutput) (e : Entity)
  | EmitEvent (emitter : PluginEmitter) (e : EventData) (key : Key)
  | SendMetricsWithCommonAttributes (common : Common) (metrics : List TelemetryMetric)
  | WarnDiscardingEvent (payload : EventData) (error : String)
  | WarnCouldNotSendMetrics (integration_name : String) (error : String)

/-- Functions of other packages that the emission functions call. `σ` is the state of the
metrics sender, on which the outcome of a submission may depend. -/
structure Collaborators (σ : Type) where
  /-- Method `entity.ID.IsEmpty`. -/
  IsEmpty : ID → Bool
  /-- Function `protocol.NewEventData`. -/
  NewEventData : List Opt → Except String EventData
  /-- Function `v3.BuildInventoryDataSet` (inventory, labels, integration user, integration
  name, entity name). -/
  BuildInventoryDataSet :
    List (String × InventoryData) → Labels → String → String → String → PluginOutput
  /-- Method `IntegrationProcessor.ProcessMetrics`. -/
  ProcessMetrics : IntegrationProcessor → List Metric → Common → EntityFields →
    List TelemetryMetric
  /-- Method `MetricsSender.SendMetricsWithCommonAttributes`. -/
  SendMetricsWithCommonAttributes : σ → Common → List TelemetryMetric → σ × Option String
  /-- Method `EntityFwRequest.LabelsAndExtraAnnotations`. -/
  LabelsAndExtraAnnotations : EntityFwRequest → Labels × Labels
  /-- Method `Definition.PluginID`. -/
  PluginID : Definition → String → String

/-- Go `emitMetrics` (lines 182-196). -/
def emitMetrics {σ : Type} (C : Collaborators σ) (metricSender : σ) (metadata : Definition)
    (dataset : Dataset) (annotations labels : Labels) : σ × List EmitCall :=
  let dmProcessor : IntegrationProcessor :=
    { IntegrationInterval := metadata.Interval
      IntegrationLabels := labels
      IntegrationExtraAnnotations := annotations }
  let metrics := C.ProcessMetrics dmProcessor dataset.Metrics dataset.Common dataset.Entity
  match C.SendMetricsWithCommonAttributes metricSender dataset.Common metrics with
  | (metricSender, some err) =>
    (metricSender, [EmitCall.SendMetricsWithCommonAttributes dataset.Common metrics,
      EmitCall.WarnCouldNotSendMetrics metadata.Name err])
  | (metricSender, none) =>
    (metricSender, [EmitCall.SendMetricsWithCommonAttributes dataset.Common metrics])

/-- Go `emitInventory` (lines 198-216). -/
def emitInventory {σ : Type} (C : Collaborators σ) (emitter : PluginEmitter)
    (metadata : Definition) (integrationMetadata : IntegrationMetadata) (entityID : ID)
    (dataSet : Dataset) (labels : Labels) : List EmitCall :=
  let integrationUser := metadata.ExecutorConfig.User
  if dataSet.Inventory.length > 0 then
    let inventoryDataSet := C.BuildInventoryDataSet dataSet.Inventory labels integrationUser
      integrationMetadata.Name dataSet.Entity.Name
    let entityKey : Key := dataSet.Entity.Name
    [EmitCall.EmitInventory emitter inventoryDataSet { Key := entityKey, ID := entityID }]
  else []

/-- Go `attributesFromEvent` (lines 252-260); the updated `*builder` is returned. -/
def attributesFromEvent (event : EventData) (builder : List Opt) : List Opt :=
  match event.lookup "attributes" with
  | some (Value.mapping t) => builder ++ [Opt.WithAttributes t]
  | _ => builder

/-- The slice `sharedOpts` of `emitEvent` when the loop starts (lines 219-232). -/
def sharedOpts {σ : Type} (C : Collaborators σ) (metadata : Definition) (dataSet : Dataset)
    (labels annotations : Labels) (entityID : ID) : List Opt :=
  let sharedOpts := [Opt.WithLabels labels, Opt.WithAnnotations annotations]
  let sharedOpts :=
    if !C.IsEmpty entityID then
      sharedOpts ++ [Opt.WithEntity { Key := dataSet.Entity.Name, ID := entityID }]
    else sharedOpts
  let u := metadata.ExecutorConfig.User
  if u ≠ "" then sharedOpts ++ [Opt.WithIntegrationUser u] else sharedOpts

/-- The slice `opts` passed to `protocol.NewEventData` for one event (lines 235-237). -/
def eventOpts (shared : List Opt) (event : EventData) : List Opt :=
  let opts := shared ++ [Opt.WithEvents event]
  attributesFromEvent event opts

/-- The `for` loop of `emitEvent` (lines 234-249). -/
def emitEventLoop {σ : Type} (C : Collaborators σ) (emitter : PluginEmitter)
    (dataSet : Dataset) (shared : List Opt) : List EventData → List EmitCall
  | [] => []
  | event :: rest =>
    match C.NewEventData (eventOpts shared event) with
    | Except.error err =>
      EmitCall.WarnDiscardingEvent event err :: emitEventLoop C emitter dataSet shared rest
    | Except.ok e =>
      EmitCall.EmitEvent emitter e dataSet.Entity.Name ::
        emitEventLoop C emitter dataSet shared rest

/-- Go `emitEvent` (lines 218-250). -/
def emitEvent {σ : Type} (C : Collaborators σ) (emitter : PluginEmitter)
    (metadata : Definition) (dataSet : Dataset) (labels annotations : Labels)
    (entityID : ID) : List EmitCall :=
  emitEventLoop C emitter dataSet (sharedOpts C metadata dataSet labels annotations entityID)
    dataSet.Events

/-- Go `emitter.emitDataset` (lines 169-180); `metricsSender` is the field `e.metricsSender`. -/
def emitDataset {σ : Type} (C : Collaborators σ) (metricsSender : σ) (r : EntityFwRequest) :
    σ × List EmitCall :=
  let (labels, annos) := C.LabelsAndExtraAnnotations r
  let plugin : PluginEmitter :=
    { PluginID := C.PluginID r.Definition r.Integration.Name, Name := r.Definition.Name }
  let inv := emitInventory C plugin r.Definition r.Integration r.ID r.Data labels
  let evs := emitEvent C plugin r.Definition r.Data labels annos r.ID
  let (metricsSender, ms) := emitMetrics C metricsSender r.Definition r.Data annos labels
  (metricsSender, inv ++ evs ++ ms)

/-! ## The emitter: `Send`, the lazy start and the Forward-Request Consumer -/

/-- Constant `defaultRegisterWorkersAmnt` (line 43). -/
def defaultRegisterWorkersAmnt : Int := 4

/-- Constant `defaultRegisterBatchSize` (line 44). -/
def defaultRegisterBatchSize : Int := 100

/-- Constant `defaultRegisterBatchBytesSize` (line 45). -/
def defaultRegisterBatchBytesSize : Int := 1000 * 1000

/-- Constant `defaultRegisterBatchSecs` (line 46). -/
def defaultRegisterBatchSecs : Int := 1

/-- Constant `defaultRequestsQueueLen` (line 47). -/
def defaultRequestsQueueLen : Nat := 1000

/-- Go `time.Second`, in nanoseconds. -/
def Second : Int := 1000000000

/-- A Go `int64` product: the mathematical value wrapped to 64 bits, two's complement. -/
def wrapInt64 (x : Int) : Int := (x + 2 ^ 63) % 2 ^ 64 - 2 ^ 63

/-- Go `register.WorkerConfig`, as filled in by `lazyLoadProcessor`. -/
structure WorkerConfig where
  MaxBatchSize : Int
  MaxBatchSizeBytes : Int
  MaxBatchDuration : Int
  MaxRetryBo : Int
  VerboseLogLevel : Int
  deriving DecidableEq, Repr

/-- The goroutines the emitter launches with `go`. -/
inductive Goroutine where
  | runFwReqConsumer
  | runReqsRegisteredConsumer
  | regWorkerRun (config : WorkerConfig)
  deriving DecidableEq, Repr

/-- Calls and launches made by `Send`, `lazyLoadProcessor` and `runFwReqConsumer`, in
program order. -/
inductive Effect where
  | measureDMRequestsForwarded (n : Int)
  | measureDMDatasetsReceived (n : Int)
  | go (g : Goroutine)
  | processDatasetNoRegister (i : IntegrationMetadata) (m : FwRequestMeta) (ds : Dataset)
  | processDatasetRegister (i : IntegrationMetadata) (m : FwRequestMeta) (ds : Dataset)

/-- Go `emitter` (lines 56-73): the running flag, the inbound channel (its buffered content,
oldest first, and its capacity) and the settings read by `lazyLoadProcessor`. -/
structure emitter where
  isProcessing : Bool
  reqsQueue : List FwRequest
  reqsQueueCap : Nat
  maxRetryBo : Int
  registerWorkers : Int
  registerMaxBatchSize : Int
  registerMaxBatchBytesSize : Int
  registerMaxBatchTime : Int
  verboseLogLevel : Int

/-- Go `NewEmitter` (lines 79-102); the two arguments are the fields `RegisterMaxRetryBoSecs`
and `Verbose` of `agentContext.Config()`. -/
def NewEmitter (RegisterMaxRetryBoSecs Verbose : Int) : emitter :=
  { isProcessing := false
    reqsQueue := []
    reqsQueueCap := defaultRequestsQueueLen
    maxRetryBo := wrapInt64 (RegisterMaxRetryBoSecs * Second)
    registerWorkers := defaultRegisterWorkersAmnt
    registerMaxBatchSize := defaultRegisterBatchSize
    registerMaxBatchBytesSize := defaultRegisterBatchBytesSize
    registerMaxBatchTime := wrapInt64 (defaultRegisterBatchSecs * Second)
    verboseLogLevel := Verbose }

/-- How a call ends: it returns, or its goroutine stays blocked on a channel operation. -/
inductive Outcome where
  | returned
  | blocked
  deriving DecidableEq, Repr

/-- The channel send `e.reqsQueue <- req` (line 108). It cannot proceed while the buffer is
full: `none` is the blocked sender. -/
def enqueue (e : emitter) (req : FwRequest) : Option emitter :=
  if e.reqsQueue.length < e.reqsQueueCap then
    some { e with reqsQueue := e.reqsQueue ++ [req] }
  else none

/-- The atomic read `e.isProcessing.IsNotSet()` (line 113). -/
def IsNotSet (e : emitter) : Bool := !e.isProcessing

/-- The launches of the loop of lines 119-136: one `go regWorker.Run(ctx)` for each
`w` with `0 <= w < e.registerWorkers`. -/
def launchWorkers (e : emitter) : List Effect :=
  (List.range e.registerWorkers.toNat).map fun _ =>
    Effect.go (Goroutine.regWorkerRun
      { MaxBatchSize := e.registerMaxBatchSize
        MaxBatchSizeBytes := e.registerMaxBatchBytesSize
        MaxBatchDuration := e.registerMaxBatchTime
        MaxRetryBo := e.maxRetryBo
        VerboseLogLevel := e.verboseLogLevel })

/-- The body of the `if` of `lazyLoadProcessor` (lines 114-136): set the flag, launch the two
consumers and the registration workers. -/
def startProcessor (e : emitter) : emitter × List Effect :=
  ({ e with isProcessing := true },
    [Effect.go Goroutine.runFwReqConsumer, Effect.go Goroutine.runReqsRegisteredConsumer]
      ++ launchWorkers e)

/-- Go `emitter.lazyLoadProcessor` (lines 112-138), run without interruption. -/
def lazyLoadProcessor (e : emitter) : emitter × List Effect :=
  if IsNotSet e then startProcessor e else (e, [])

/-- Go `emitter.Send` (lines 106-110), run without interruption: the emitter afterwards, the
calls and launches made, and whether the caller returned or is blocked on the full inbound
channel. -/
def Send (e : emitter) (req : FwRequest) : emitter × List Effect × Outcome :=
  let counted := [Effect.measureDMRequestsForwarded 1]
  match enqueue e req with
  | none => (e, counted, Outcome.blocked)
  | some e =>
    let (e, started) := lazyLoadProcessor e
    (e, counted ++ started, Outcome.returned)

/-- Where one caller of `Send` stands: at the call, before the channel send, before the read
of the flag, after the read (with the value read), or returned. -/
inductive SendPc where
  | call (req : FwRequest)
  | counted (req : FwRequest)
  | enqueued
  | checked (notSet : Bool)
  | returned

/-- Whether a caller of `Send` has returned. -/
def SendPc.hasReturned : SendPc → Bool
  | SendPc.returned => true
  | _ => false

/-- Several callers of `Send` on one emitter: the shared emitter, the effects so far and the
position of each caller. -/
structure Producers where
  e : emitter
  effects : List Effect
  callers : List SendPc

/-- One atomic step of caller `i` of `Send`: the request counter (line 107), the channel send
(line 108), the read of the flag (line 113), or the rest of `lazyLoadProcessor` according to
the value read (lines 114-137). A blocked or returned caller, or an index without caller,
leaves the state as is. -/
def stepProducer (p : Producers) (i : Nat) : Producers :=
  match p.callers.get? i with
  | some (SendPc.call req) =>
    { p with
      effects := p.effects ++ [Effect.measureDMRequestsForwarded 1]
      callers := p.callers.set i (SendPc.counted req) }
  | some (SendPc.counted req) =>
    match enqueue p.e req with
    | none => p
    | some e => { p with e := e, callers := p.callers.set i SendPc.enqueued }
  | some SendPc.enqueued =>
    { p with callers := p.callers.set i (SendPc.checked (IsNotSet p.e)) }
  | some (SendPc.checked true) =>
    let (e, started) := startProcessor p.e
    { e := e, effects := p.effects ++ started, callers := p.callers.set i SendPc.returned }
  | some (SendPc.checked false) =>
    { p with callers := p.callers.set i SendPc.returned }
  | some SendPc.returned => p
  | none => p

/-- The callers of `Send` run under a schedule: the list of the callers that take a step, in
order. -/
def runProducers (p : Producers) (schedule : List Nat) : Producers :=
  schedule.foldl stepProducer p

/-- Number of launches of the goroutine `g` among the effects. -/
def launches (g : Goroutine) (effects : List Effect) : Nat :=
  effects.countP fun x =>
    match x with
    | Effect.go h => decide (h = g)
    | _ => false

/-- Number of launches of registration workers among the effects. -/
def workerLaunches (effects : List Effect) : Nat :=
  effects.countP fun x =>
    match x with
    | Effect.go (Goroutine.regWorkerRun _) => true
    | _ => false

/-- Where `runFwReqConsumer` stands: at the `select` of line 146, in the loop over the
datasets of a request (with the datasets still to visit), or returned. -/
inductive Loc where
  | top
  | datasets (req : FwRequest) (rest : List Dataset)
  | returned

/-- State of a run of `runFwReqConsumer`: the emitter, whether `ctx.Done()` is closed, the
position in the function and the calls made so far. -/
structure Consumer where
  e : emitter
  cancelled : Bool
  loc : Loc
  effects : List Effect

/-- The `return` statements of `runFwReqConsumer` with the deferred
`e.isProcessing.UnSet()` (line 143). -/
def exitConsumer (c : Consumer) : Consumer :=
  { c with e := { c.e with isProcessing := false }, loc := Loc.returned }

/-- The `if` of lines 157-162: the call made for one dataset. -/
def dispatch (req : FwRequest) (ds : Dataset) : Effect :=
  if ds.IgnoreEntity then
    Effect.processDatasetNoRegister req.Data.Integration req.FwRequestMeta ds
  else
    Effect.processDatasetRegister req.Data.Integration req.FwRequestMeta ds

/-- One step of `runFwReqConsumer` (lines 145-166). At the outer `select` the Go runtime
chooses among the ready cases; `pickDone` is its choice when both the context is done and a
request is waiting. With neither ready the goroutine stays blocked. In the inner `select`
the `default` case runs only when `ctx.Done()` is not ready. -/
def stepFwReqConsumer (c : Consumer) (pickDone : Bool) : Consumer :=
  match c.loc with
  | Loc.returned => c
  | Loc.top =>
    match c.e.reqsQueue with
    | [] => if c.cancelled then exitConsumer c else c
    | req :: queue =>
      if c.cancelled && pickDone then exitConsumer c
      else
        { c with
          e := { c.e with reqsQueue := queue }
          loc := Loc.datasets req req.Data.DataSets
          effects := c.effects ++ [Effect.measureDMDatasetsReceived req.Data.DataSets.length] }
  | Loc.datasets _ [] => { c with loc := Loc.top }
  | Loc.datasets req (ds :: rest) =>
    if c.cancelled then exitConsumer c
    else { c with loc := Loc.datasets req rest, effects := c.effects ++ [dispatch req ds] }

/-- Several consecutive steps of `runFwReqConsumer`, one for each element of `picks`. -/
def runFwReqConsumer (c : Consumer) (picks : List Bool) : Consumer :=
  picks.foldl stepFwReqConsumer c

/-- The cancellation of the context, seen from the consumer: `ctx.Done()` is closed from
then on. -/
def cancel (c : Consumer) : Consumer := { c with cancelled := true }

/-! ## Sequences of calls and what is observed of them -/

/-- Consecutive calls of `Send` by one caller, each run to its end before the next starts,
with no step of a consumer in between; a blocked call ends the sequence. -/
def sendAll (e : emitter) : List FwRequest → emitter × List Effect × Outcome
  | [] => (e, [], Outcome.returned)
  | req :: reqs =>
    match Send e req with
    | (e, first, Outcome.blocked) => (e, first, Outcome.blocked)
    | (e, first, Outcome.returned) =>
      match sendAll e reqs with
      | (e, others, outcome) => (e, first ++ others, outcome)

/-- The worker settings of an emitter built by `NewEmitter`. -/
def defaultWorkerConfig (RegisterMaxRetryBoSecs Verbose : Int) : WorkerConfig :=
  { MaxBatchSize := 100, MaxBatchSizeBytes := 1000000, MaxBatchDuration := 1000000000,
    MaxRetryBo := wrapInt64 (RegisterMaxRetryBoSecs * Second), VerboseLogLevel := Verbose }

/-- The `EmitEvent` calls among a list of calls, in order: emitter, event record and key. -/
def emittedEvents : List EmitCall → List (PluginEmitter × EventData × Key)
  | [] => []
  | EmitCall.EmitEvent emitter e key :: rest => (emitter, e, key) :: emittedEvents rest
  | _ :: rest => emittedEvents rest

/-- The submissions to the metrics sender among a list of calls, in order: common attributes
and metrics. -/
def submissions : List EmitCall → List (Common × List TelemetryMetric)
  | [] => []
  | EmitCall.SendMetricsWithCommonAttributes common metrics :: rest =>
    (common, metrics) :: submissions rest
  | _ :: rest => submissions rest

/-- Consecutive calls of `emitDataset` on one emitter, as made by a caller that takes the
requests one after the other. -/
def emitDatasets {σ : Type} (C : Collaborators σ) (metricsSender : σ) :
    List EntityFwRequest → σ × List EmitCall
  | [] => (metricsSender, [])
  | r :: rest =>
    let (metricsSender, first) := emitDataset C metricsSender r
    let (metricsSender, others) := emitDatasets C metricsSender rest
    (metricsSender, first ++ others)

/-- The calls of the two process functions among the effects, in order. -/
def dispatched : List Effect → List Effect
  | [] => []
  | Effect.processDatasetNoRegister i m ds :: rest =>
    Effect.processDatasetNoRegister i m ds :: dispatched rest
  | Effect.processDatasetRegister i m ds :: rest =>
    Effect.processDatasetRegister i m ds :: dispatched rest
  | _ :: rest => dispatched rest

/-- A bound on the number of steps a consumer whose context is cancelled can still take
before it returns: each request still in the channel costs at most two steps. -/
def stepsToReturn (c : Consumer) : Nat :=
  match c.loc with
  | Loc.returned => 0
  | Loc.top => 2 * c.e.reqsQueue.length + 1
  | Loc.datasets _ [] => 2 * c.e.reqsQueue.length + 2
  | Loc.datasets _ (_ :: _) => 1

/-! ## `replaceEntityName` -/

/-- The two variables of a call `replaceEntityName(x, entityRewrite, agentShortName)` when
the function returns: the variable `x` of the caller, and the parameter `entity` of the
function. `entity.Fields` is a struct type and Go passes structs by value, so the parameter
is a copy of `x`. -/
structure ReplaceEntityNameVars where
  caller : EntityFields
  entity : EntityFields
  deriving DecidableEq, Repr

/-- Go `replaceEntityName` (lines 263-267), called on the variable `x` of the caller. `Apply`
is `entityRewrite.Apply` and `ReplaceLocalhost` is `http.ReplaceLocalhost`. The assignment
of line 266 writes the parameter. -/
def replaceEntityName (Apply : String → String) (ReplaceLocalhost : String → String → String)
    (x : EntityFields) (agentShortName : String) : ReplaceEntityNameVars :=
  let entity := x
  let newName := Apply entity.Name
  let newName := ReplaceLocalhost newName agentShortName
  { caller := x, entity := { entity with Name := newName } }

/-! ## `Group.Run` (`pkg/integrations/execution/v4/runner/group.go`) -/

/-- The fields of Go `runner.Group` (lines 23-34). Apart from the integration definitions the
fields are only handed on to `NewRunner`; each is represented by a name of the object. -/
structure Group where
  dSources : String
  integrations : List Definition
  emitter : String
  handleErrorsProvide : String
  cmdReqHandle : String
  configHandle : String
  terminateDefinitionQ : String
  idLookup : String
  deriving DecidableEq, Repr

/-- One statement `go NewRunner(...).Run(ctx, nil, nil)`: the runner, built in the calling
goroutine, and the context its `Run` is started with. -/
structure RunnerLaunch (R : Type) where
  runner : R
  ctx : String

/-- The type of the function `NewRunner`, which takes the definition, the emitter,
`dSources`, `handleErrorsProvide`, `cmdReqHandle`, `configHandle`, `terminateDefinitionQ`
and `idLookup`, and returns a runner. -/
abbrev NewRunnerFn (R : Type) : Type :=
  Definition → String → String → String → String → String → String → String → R

/-- The `for` loop of `Group.Run` (lines 66-69): the launches made so far and the named
result `hasStartedAnyOHI`. -/
def Group.runLoop {R : Type}
    (NewRunner : NewRunnerFn R)
    (g : Group) (ctx : String) :
    List Definition → List (RunnerLaunch R) × Bool → List (RunnerLaunch R) × Bool
  | [], st => st
  | integr :: rest, (launched, _) =>
    Group.runLoop NewRunner g ctx rest
      (launched ++ [{ runner := NewRunner integr g.emitter g.dSources g.handleErrorsProvide
                        g.cmdReqHandle g.configHandle g.terminateDefinitionQ g.idLookup
                      ctx := ctx }], true)

/-- Go `Group.Run` (lines 65-72): the launches, in order, and the result. -/
def Group.Run {R : Type}
    (NewRunner : NewRunnerFn R)
    (g : Group) (ctx : String) : List (RunnerLaunch R) × Bool :=
  Group.runLoop NewRunner g ctx g.integrations ([], false)

/-! ## Sample data -/

/-- A dataset without inventory, events or metrics, for the entity `name`. -/
def sampleDataset (name : String) (ignoreEntity : Bool) : Dataset :=
  { Common := { raw := "" }, Metrics := [], Entity := { Name := name }, Inventory := [],
    Events := [], IgnoreEntity := ignoreEntity }

/-- A forward request of the integration `nri-test` with the given datasets. -/
def sampleRequest (dataSets : List Dataset) : FwRequest :=
  { FwRequestMeta :=
      { Definition := { Name := "nri-test", Interval := 30, ExecutorConfig := { User := "" } } }
    Data :=
      { PluginProtocolVersion := "4", Integration := { Name := "nri-test", Version := "1.0" },
        DataSets := dataSets } }

/-- Two callers of `Send` on a new emitter, both about to start. -/
def twoCallers : Producers :=
  { e := NewEmitter 60 0, effects := [],
    callers := [SendPc.call (sampleRequest [sampleDataset "a" false]),
      SendPc.call (sampleRequest [sampleDataset "b" false])] }

/-- Sample collaborators: an identifier is empty when it is zero, an event builds when it has
a summary, and the sender (whose state counts the submissions) rejects every second
submission. -/
def sampleCollaborators : Collaborators Nat :=
  { IsEmpty := fun id => id == 0
    NewEventData := fun opts =>
      match opts.findSome? (fun o => match o with
        | Opt.WithEvents event => some event
        | _ => none) with
      | some event =>
        if (event.lookup "summary").isSome then Except.ok event
        else Except.error "missing summary"
      | none => Except.error "no event"
    BuildInventoryDataSet := fun inventory _ user name entityName =>
      { raw := toString inventory.length ++ "/" ++ user ++ "/" ++ name ++ "/" ++ entityName }
    ProcessMetrics := fun _ metrics _ _ => metrics.map fun m => { raw := m.raw }
    SendMetricsWithCommonAttributes := fun n _ _ =>
      (n + 1, if n % 2 = 1 then some "rejected" else none)
    LabelsAndExtraAnnotations := fun _ => ([("env", "test")], [])
    PluginID := fun d name => d.Name ++ "/" ++ name }

/-- A dataset of the entity `host-A` with one inventory item, one event that builds, one that
does not, and one metric. -/
def sampleFullDataset : Dataset :=
  { Common := { raw := "common" }, Metrics := [{ raw := "cpu" }], Entity := { Name := "host-A" },
    Inventory := [("kernel", { raw := "5.4" })],
    Events := [[("summary", Value.string "up")], [("category", Value.string "x")]],
    IgnoreEntity := false }

/-- A registered request for `sampleFullDataset` with the entity identifier `id`. -/
def sampleEntityFwRequest (id : ID) : EntityFwRequest :=
  { FwRequestMeta :=
      { Definition := { Name := "nri-test", Interval := 30, ExecutorConfig := { User := "" } } }
    Data := sampleFullDataset
    Integration := { Name := "nri-test", Version := "1.0" }
    entityID := id }

/-- A running consumer at the top of its loop, the context not cancelled, with one request of
three datasets waiting. -/
def sampleConsumer : Consumer :=
  { e := { NewEmitter 60 0 with
           isProcessing := true
           reqsQueue := [sampleRequest
             [sampleDataset "a" false, sampleDataset "b" false, sampleDataset "c" true]] }
    cancelled := false, loc := Loc.top, effects := [] }

/-! ## Theorems: the parsing gate -/

/-- C1: on an empty input `ParsePayloadV4` returns `NoContentToParseErr` and the zero-value
payload, whatever the feature-flag retriever answers, and calls neither the retriever nor
the JSON decoder. -/
theorem parsePayloadV4_empty (FlagProtocolV4 : String)
    (Unmarshal : List UInt8 → DataV4 → DataV4 × Option String) (ffManager : Retriever) :
    (ParsePayloadV4 FlagProtocolV4 Unmarshal [] ffManager).err
        = some GoError.NoContentToParseErr
      ∧ (ParsePayloadV4 FlagProtocolV4 Unmarshal [] ffManager).dataV4 = DataV4.zero
      ∧ (ParsePayloadV4 FlagProtocolV4 Unmarshal [] ffManager).calls = [] := by
  simp [ParsePayloadV4]

/-- C2: on a non-empty input `ParsePayloadV4` returns `ProtocolV4NotEnabledErr` with the
zero-value payload exactly when the retriever reports the flag as absent or as false; when
the flag is present and true, payload and error are those of the JSON decoder run on the
input, and the error is neither of the two gate errors. -/
theorem parsePayloadV4_gate (FlagProtocolV4 : String)
    (Unmarshal : List UInt8 → DataV4 → DataV4 × Option String) (ffManager : Retriever)
    (raw : List UInt8) (hraw : raw ≠ []) :
    (((ParsePayloadV4 FlagProtocolV4 Unmarshal raw ffManager).err
          = some GoError.ProtocolV4NotEnabledErr
        ∧ (ParsePayloadV4 FlagProtocolV4 Unmarshal raw ffManager).dataV4 = DataV4.zero)
      ↔ ((ffManager.GetFeatureFlag FlagProtocolV4).2 = false
        ∨ (ffManager.GetFeatureFlag FlagProtocolV4).1 = false))
    ∧ (ffManager.GetFeatureFlag FlagProtocolV4 = (true, true) →
        (ParsePayloadV4 FlagProtocolV4 Unmarshal raw ffManager).dataV4
            = (Unmarshal raw DataV4.zero).1
          ∧ (ParsePayloadV4 FlagProtocolV4 Unmarshal raw ffManager).err
            = (Unmarshal raw DataV4.zero).2.map GoError.json
          ∧ (ParsePayloadV4 FlagProtocolV4 Unmarshal raw ffManager).err
            ≠ some GoError.ProtocolV4NotEnabledErr
          ∧ (ParsePayloadV4 FlagProtocolV4 Unmarshal raw ffManager).err
            ≠ some GoError.NoContentToParseErr) := by
  have hlen : ¬ raw.length = 0 := by
    intro h
    exact hraw (List.length_eq_zero.mp h)
  rcases hff : ffManager.GetFeatureFlag FlagProtocolV4 with ⟨enabled, ok⟩
  rcases hdec : Unmarshal raw DataV4.zero with ⟨v, e⟩
  cases enabled <;> cases ok <;> cases e <;>
    simp [ParsePayloadV4, hlen, hff, hdec]

/-- Witness of C2 on the two-byte input `{}` with the flag present and false. -/
theorem parsePayloadV4_gate_witness :
    ([123, 125] : List UInt8) ≠ []
      ∧ (ParsePayloadV4 "protocol_v4_enabled" (fun _ v => (v, none)) [123, 125]
          { GetFeatureFlag := fun _ => (false, true) }).err
        = some GoError.ProtocolV4NotEnabledErr :=
  ⟨by decide,
    ((parsePayloadV4_gate "protocol_v4_enabled" (fun _ v => (v, none))
      { GetFeatureFlag := fun _ => (false, true) } [123, 125] (by decide)).1.mpr
        (Or.inr rfl)).1⟩

/-! ## Theorems: the composed emit error -/

/-- The characters of `String.intercalate.go`: the accumulator, then each string after a
separator. -/
theorem intercalate_go_data (s : String) (as : List String) (acc : String) :
    (String.intercalate.go acc s as).data = acc.data ++ separated s as := by
  induction as generalizing acc with
  | nil => simp [String.intercalate.go, separated]
  | cons a as ih => simp [String.intercalate.go, separated, ih, String.data_append]

/-- The characters of a non-empty list of strings joined by `s`. -/
theorem intercalate_cons_data (s r : String) (rs : List String) :
    (String.intercalate s (r :: rs)).data = r.data ++ separated s rs := by
  simp [String.intercalate, intercalate_go_data]

/-- Dropping the last comma of comma-terminated reasons gives the comma-separated reasons. -/
theorem dropLast_trailing (rs : List String) (r : String) (x : List Char) :
    (x ++ trailing (r :: rs)).dropLast = x ++ (r.data ++ separated "," rs) := by
  induction rs generalizing r x with
  | nil =>
    have h : x ++ trailing [r] = (x ++ r.data) ++ [','] := by simp [trailing]
    rw [h, List.dropLast_concat]
    simp [separated]
  | cons r2 rs ih =>
    have h : x ++ trailing (r :: r2 :: rs)
        = (x ++ r.data ++ [',']) ++ trailing (r2 :: rs) := by
      simp [trailing]
    rw [h, ih]
    simp [separated]

/-- The text built by the loop of `composeEmitError`: the messages not yet seen, once each,
every one followed by a comma. -/
theorem composeLoop_data (l : List String) (acc : String) (seen : List String) :
    (composeLoop l (acc, seen)).1.data
      = acc.data ++ trailing ((distinctReasons l).filter (fun m => m ∉ seen)) := by
  induction l generalizing acc seen with
  | nil => simp [composeLoop, distinctReasons, trailing]
  | cons msg rest ih =>
    by_cases h : msg ∈ seen
    · simp only [composeLoop, h, if_true, ih, distinctReasons]
      congr 2
      simp only [List.filter_cons, h, not_true_eq_false, decide_False]
      rw [List.filter_filter]
      apply List.filter_congr
      intro x _
      by_cases hx : x ∈ seen
      · simp [hx]
      · have : x ≠ msg := fun e => hx (e ▸ h)
        simp [hx, this]
    · simp only [composeLoop, h, if_false, ih, distinctReasons]
      simp only [List.filter_cons, h, not_false_eq_true, decide_True, if_true, trailing,
        String.data_append]
      rw [List.filter_filter]
      have : List.filter (fun m => decide (m ∉ msg :: seen)) (distinctReasons rest)
          = List.filter (fun a => decide (a ∉ seen) && decide (a ≠ msg))
              (distinctReasons rest) := by
        apply List.filter_congr
        intro x _
        by_cases hx : x ∈ seen <;> by_cases hm : x = msg <;> simp [hx, hm]
      rw [this]
      simp

/-- The distinct reasons have exactly the messages of the list. -/
theorem mem_distinctReasons (l : List String) (x : String) :
    x ∈ distinctReasons l ↔ x ∈ l := by
  induction l with
  | nil => simp [distinctReasons]
  | cons a l ih =>
    simp only [distinctReasons, List.mem_cons, List.mem_filter, ih]
    by_cases h : x = a <;> simp [h]

/-- The distinct reasons have no repetition. -/
theorem nodup_distinctReasons (l : List String) : (distinctReasons l).Nodup := by
  induction l with
  | nil => simp [distinctReasons]
  | cons a l ih =>
    simp only [distinctReasons, List.nodup_cons]
    exact ⟨by simp [List.mem_filter], ih.filter _⟩

/-- The distinct reasons keep the order of the list. -/
theorem sublist_distinctReasons (l : List String) : (distinctReasons l).Sublist l := by
  induction l with
  | nil => exact List.Sublist.slnil
  | cons a l ih => exact ((List.filter_sublist _).trans ih).cons₂ a

/-- The value of `composeEmitError` on a non-empty list: the header followed by the distinct
messages joined by commas. -/
theorem composeEmitError_eq (emitErrs : List String) (dataSetLength : Int)
    (h : emitErrs ≠ []) :
    composeEmitError emitErrs dataSetLength
      = some (some (emitErrorHeader emitErrs.length dataSetLength
          ++ ",".intercalate (distinctReasons emitErrs))) := by
  obtain ⟨msg, rest, rfl⟩ := List.exists_cons_of_ne_nil h
  have hd : (composeLoop (msg :: rest)
      (emitErrorHeader (msg :: rest).length dataSetLength, [])).1.data
      = (emitErrorHeader (msg :: rest).length dataSetLength).data
        ++ trailing (msg :: (distinctReasons rest).filter (fun m => m ≠ msg)) := by
    rw [composeLoop_data]
    simp [distinctReasons]
  have hne : ¬ (composeLoop (msg :: rest)
      (emitErrorHeader (msg :: rest).length dataSetLength, [])).1.length = 0 := by
    rw [String.length, hd]
    simp [trailing]
  simp only [composeEmitError, List.length_cons, Nat.succ_ne_zero, if_false]
  simp only [List.length_cons] at hd hne
  show Option.map some (sliceButLast (composeLoop (msg :: rest)
      (emitErrorHeader (rest.length + 1) dataSetLength, [])).1) = _
  simp only [sliceButLast, hne, if_false, Option.map_some']
  congr 2
  apply String.ext
  rw [hd, dropLast_trailing, String.data_append, distinctReasons, intercalate_cons_data]

/-- C3: for a non-empty list of emit errors the composed message is the header (which ends
with "Reasons: ") followed by the messages of the list with later repetitions removed
(`distinctReasons`), joined by "," with no trailing comma; that list of reasons has no
repetition, keeps the order of the errors and has exactly the messages of the errors. -/
theorem composeEmitError_reasons (emitErrs : List String) (dataSetLength : Int)
    (h : emitErrs ≠ []) :
    composeEmitError emitErrs dataSetLength
        = some (some (emitErrorHeader emitErrs.length dataSetLength
            ++ ",".intercalate (distinctReasons emitErrs)))
      ∧ (distinctReasons emitErrs).Nodup
      ∧ (distinctReasons emitErrs).Sublist emitErrs
      ∧ ∀ msg, msg ∈ distinctReasons emitErrs ↔ msg ∈ emitErrs :=
  ⟨composeEmitError_eq emitErrs dataSetLength h, nodup_distinctReasons emitErrs,
    sublist_distinctReasons emitErrs, mem_distinctReasons emitErrs⟩

/-- Witness of C3: the reasons timeout, invalid payload, timeout render as
"timeout,invalid payload". -/
theorem composeEmitError_reasons_witness :
    ["timeout", "invalid payload", "timeout"] ≠ ([] : List String)
      ∧ composeEmitError ["timeout", "invalid payload", "timeout"] 5
        = some (some
            "3 out of 5 datasets could not be emitted. Reasons: timeout,invalid payload") :=
  ⟨by decide,
    (composeEmitError_reasons ["timeout", "invalid payload", "timeout"] 5 (by decide)).1.trans
      (by decide)⟩

/-- C4: for a non-empty list of `n` emit errors and a dataset count `m` the composed message
starts with "n out of m datasets could not be emitted. Reasons: ", with `n` the length of
the list, repeated messages included. -/
theorem composeEmitError_header (emitErrs : List String) (dataSetLength : Int)
    (h : emitErrs ≠ []) :
    ∃ reasons : String,
      composeEmitError emitErrs dataSetLength
        = some (some (toString emitErrs.length ++ " out of " ++ toString dataSetLength
            ++ " datasets could not be emitted. Reasons: " ++ reasons)) :=
  ⟨",".intercalate (distinctReasons emitErrs), composeEmitError_eq emitErrs dataSetLength h⟩

/-- Witness of C4: two failures with the same message out of five datasets are counted as
two. -/
theorem composeEmitError_header_witness :
    ["timeout", "timeout"] ≠ ([] : List String)
      ∧ ∃ reasons : String, composeEmitError ["timeout", "timeout"] 5
        = some (some ("2 out of 5 datasets could not be emitted. Reasons: " ++ reasons)) :=
  ⟨by decide, composeEmitError_header ["timeout", "timeout"] 5 (by decide)⟩

/-! ## Theorems: the Forward-Request Consumer -/

/-- The loop over the datasets while the context is not cancelled: one dispatch per step. -/
theorem runFwReqConsumer_datasets (req : FwRequest) (picks : List Bool) (e : emitter)
    (rest : List Dataset) (effects : List Effect) (hk : picks.length ≤ rest.length) :
    runFwReqConsumer
        { e := e, cancelled := false, loc := Loc.datasets req rest, effects := effects } picks
      = { e := e, cancelled := false, loc := Loc.datasets req (rest.drop picks.length),
          effects := effects ++ (rest.take picks.length).map (dispatch req) } := by
  induction picks generalizing rest effects with
  | nil => simp [runFwReqConsumer]
  | cons p picks ih =>
    cases rest with
    | nil => simp at hk
    | cons ds rest =>
      have hk2 : picks.length ≤ rest.length := by simpa using hk
      have := ih rest (effects ++ [dispatch req ds]) hk2
      simp only [runFwReqConsumer] at this
      simp [runFwReqConsumer, stepFwReqConsumer, this]

/-- The receive of a request followed by steps of the loop over its datasets. -/
theorem runFwReqConsumer_request (req : FwRequest) (queue : List FwRequest) (p : Bool)
    (picks : List Bool) (e : emitter) (effects : List Effect)
    (hq : e.reqsQueue = req :: queue) (hk : picks.length ≤ req.Data.DataSets.length) :
    runFwReqConsumer
        { e := e, cancelled := false, loc := Loc.top, effects := effects } (p :: picks)
      = { e := { e with reqsQueue := queue }, cancelled := false,
          loc := Loc.datasets req (req.Data.DataSets.drop picks.length),
          effects := effects ++ Effect.measureDMDatasetsReceived req.Data.DataSets.length
            :: (req.Data.DataSets.take picks.length).map (dispatch req) } := by
  have := runFwReqConsumer_datasets req picks { e with reqsQueue := queue } req.Data.DataSets
    (effects ++ [Effect.measureDMDatasetsReceived req.Data.DataSets.length]) hk
  simp only [runFwReqConsumer] at this
  simp [runFwReqConsumer, stepFwReqConsumer, hq, this]


/-- C5: a consumer at the top of its loop, with the context not cancelled and the request
`req` first in the queue, takes the request and then dispatches its datasets one by one in
their original order, each exactly once: after the receive and `k` further steps the calls
made are those for the first `k` datasets and the loop stands before the rest; after the
last one it is back at the top. A dataset goes to `processDatasetNoRegister` if and only if
`IgnoreEntity` is set and to `processDatasetRegister` otherwise, so no dataset with
`IgnoreEntity` set reaches the registration path. -/
theorem fwReqConsumer_dispatch (c : Consumer) (req : FwRequest) (queue : List FwRequest)
    (hloc : c.loc = Loc.top) (hctx : c.cancelled = false) (hq : c.e.reqsQueue = req :: queue) :
    (∀ (p : Bool) (picks : List Bool), picks.length ≤ req.Data.DataSets.length →
        (runFwReqConsumer c (p :: picks)).effects
            = c.effects ++ Effect.measureDMDatasetsReceived req.Data.DataSets.length
                :: (req.Data.DataSets.take picks.length).map (dispatch req)
          ∧ (runFwReqConsumer c (p :: picks)).loc
            = Loc.datasets req (req.Data.DataSets.drop picks.length))
      ∧ (∀ picks : List Bool, picks.length = req.Data.DataSets.length + 2 →
          (runFwReqConsumer c picks).effects
              = c.effects ++ Effect.measureDMDatasetsReceived req.Data.DataSets.length
                  :: req.Data.DataSets.map (dispatch req)
            ∧ (runFwReqConsumer c picks).loc = Loc.top
            ∧ (runFwReqConsumer c picks).e.reqsQueue = queue)
      ∧ (∀ ds : Dataset,
          (dispatch req ds = Effect.processDatasetNoRegister req.Data.Integration
              req.FwRequestMeta ds ↔ ds.IgnoreEntity = true)
            ∧ (dispatch req ds = Effect.processDatasetRegister req.Data.Integration
              req.FwRequestMeta ds ↔ ds.IgnoreEntity = false))
      ∧ (∀ (ds : Dataset) (i : IntegrationMetadata) (m : FwRequestMeta),
          ds.IgnoreEntity = true →
            Effect.processDatasetRegister i m ds ∉ req.Data.DataSets.map (dispatch req)) := by
  obtain ⟨e, cancelled, loc, effects⟩ := c
  simp only at hloc hctx hq
  subst hloc hctx
  refine ⟨?_, ?_, ?_, ?_⟩
  · intro p picks hk
    rw [runFwReqConsumer_request req queue p picks e effects hq hk]
    exact ⟨rfl, rfl⟩
  · intro picks hlen
    obtain ⟨p, picks, rfl⟩ : ∃ p t, picks = p :: t := by
      cases picks with
      | nil => simp at hlen
      | cons p t => exact ⟨p, t, rfl⟩
    obtain ⟨mid, last, rfl⟩ : ∃ mid last, picks = mid ++ [last] := by
      have hne : picks ≠ [] := by
        intro h
        subst h
        simp at hlen
      exact ⟨picks.dropLast, picks.getLast hne, (List.dropLast_append_getLast hne).symm⟩
    have hmid : mid.length = req.Data.DataSets.length := by
      simp at hlen
      omega
    have hrun : runFwReqConsumer
        { e := e, cancelled := false, loc := Loc.top, effects := effects }
        (p :: (mid ++ [last]))
        = stepFwReqConsumer (runFwReqConsumer
            { e := e, cancelled := false, loc := Loc.top, effects := effects } (p :: mid))
            last := by
      simp [runFwReqConsumer, List.foldl_append]
    rw [hrun, runFwReqConsumer_request req queue p mid e effects hq (le_of_eq hmid)]
    simp [stepFwReqConsumer, hmid]
  · intro ds
    cases h : ds.IgnoreEntity <;> simp [dispatch, h]
  · intro ds i m hds hmem
    obtain ⟨ds2, _, h2⟩ := List.mem_map.mp hmem
    cases h : ds2.IgnoreEntity
    · simp only [dispatch, h, Bool.false_eq_true, if_false] at h2
      injection h2 with _ _ h3
      rw [← h3, h] at hds
      exact Bool.noConfusion hds
    · simp [dispatch, h] at h2

/-- Witness of C5: a request with the datasets `a` (entity ignored) and `b`. -/
theorem fwReqConsumer_dispatch_witness :
    (runFwReqConsumer
      { e := { NewEmitter 60 0 with
               isProcessing := true
               reqsQueue := [sampleRequest [sampleDataset "a" true, sampleDataset "b" false]] }
        cancelled := false, loc := Loc.top, effects := [] }
      [false, false, false, false]).effects
    = [Effect.measureDMDatasetsReceived 2,
       Effect.processDatasetNoRegister { Name := "nri-test", Version := "1.0" }
         (sampleRequest [sampleDataset "a" true, sampleDataset "b" false]).FwRequestMeta
         (sampleDataset "a" true),
       Effect.processDatasetRegister { Name := "nri-test", Version := "1.0" }
         (sampleRequest [sampleDataset "a" true, sampleDataset "b" false]).FwRequestMeta
         (sampleDataset "b" false)] :=
  ((fwReqConsumer_dispatch
    { e := { NewEmitter 60 0 with
             isProcessing := true
             reqsQueue := [sampleRequest [sampleDataset "a" true, sampleDataset "b" false]] }
      cancelled := false, loc := Loc.top, effects := [] }
    (sampleRequest [sampleDataset "a" true, sampleDataset "b" false]) [] rfl rfl rfl).2.1
      [false, false, false, false] rfl).1

/-! ## Theorems: `Send` and the lazy start -/

/-- A `Send` on a running emitter with room in the inbound channel only enqueues. -/
theorem send_running (e : emitter) (req : FwRequest) (hrun : e.isProcessing = true)
    (hroom : e.reqsQueue.length < e.reqsQueueCap) :
    Send e req = ({ e with reqsQueue := e.reqsQueue ++ [req] },
      [Effect.measureDMRequestsForwarded 1], Outcome.returned) := by
  simp [Send, enqueue, hroom, lazyLoadProcessor, IsNotSet, hrun]

/-- A `Send` on an emitter whose inbound channel is full blocks its caller. -/
theorem send_blocked (e : emitter) (req : FwRequest)
    (hfull : e.reqsQueueCap ≤ e.reqsQueue.length) :
    Send e req = (e, [Effect.measureDMRequestsForwarded 1], Outcome.blocked) := by
  simp [Send, enqueue, Nat.not_lt.mpr hfull]

/-- Consecutive calls of `Send` on a running emitter with room for all of them. -/
theorem sendAll_running (reqs : List FwRequest) (e : emitter) (hrun : e.isProcessing = true)
    (hroom : e.reqsQueue.length + reqs.length ≤ e.reqsQueueCap) :
    sendAll e reqs = ({ e with reqsQueue := e.reqsQueue ++ reqs },
      reqs.map (fun _ => Effect.measureDMRequestsForwarded 1), Outcome.returned) := by
  induction reqs generalizing e with
  | nil => simp [sendAll]
  | cons req reqs ih =>
    have h1 : e.reqsQueue.length < e.reqsQueueCap := by
      simp at hroom
      omega
    have h2 := ih { e with reqsQueue := e.reqsQueue ++ [req] } hrun (by
      simp at hroom ⊢
      omega)
    simp [sendAll, send_running e req hrun h1, h2]

/-- The first `Send` on a new emitter. -/
theorem send_first (secs verbose : Int) (req : FwRequest) :
    Send (NewEmitter secs verbose) req
      = ({ NewEmitter secs verbose with isProcessing := true, reqsQueue := [req] },
          [Effect.measureDMRequestsForwarded 1, Effect.go Goroutine.runFwReqConsumer,
           Effect.go Goroutine.runReqsRegisteredConsumer,
           Effect.go (Goroutine.regWorkerRun (defaultWorkerConfig secs verbose)),
           Effect.go (Goroutine.regWorkerRun (defaultWorkerConfig secs verbose)),
           Effect.go (Goroutine.regWorkerRun (defaultWorkerConfig secs verbose)),
           Effect.go (Goroutine.regWorkerRun (defaultWorkerConfig secs verbose))],
          Outcome.returned) := by
  simp [Send, enqueue, NewEmitter, lazyLoadProcessor, IsNotSet, startProcessor, launchWorkers,
    defaultRequestsQueueLen, defaultRegisterWorkersAmnt, defaultWorkerConfig,
    defaultRegisterBatchSize, defaultRegisterBatchBytesSize, defaultRegisterBatchSecs,
    List.range_succ]
  decide

/-- C6: sequential calls of `Send`. The first `Send` on an emitter built by `NewEmitter`
returns with the flag set and the request in the channel, having made, in this order, the
request counter, the launch of one Forward-Request Consumer, of one Registered-Request
Consumer and of four registration workers. A `Send` on an emitter whose flag is set and whose
channel has room returns with its request enqueued and launches nothing; with a full channel
the caller is blocked, and nothing is launched either. Hence any sequence of up to 1000 calls
on a new emitter returns with all requests enqueued in order, each consumer launched once and
four workers in all. -/
theorem send_state_machine :
    (∀ (secs verbose : Int) (req : FwRequest),
      Send (NewEmitter secs verbose) req
        = ({ NewEmitter secs verbose with isProcessing := true, reqsQueue := [req] },
            [Effect.measureDMRequestsForwarded 1, Effect.go Goroutine.runFwReqConsumer,
             Effect.go Goroutine.runReqsRegisteredConsumer,
             Effect.go (Goroutine.regWorkerRun (defaultWorkerConfig secs verbose)),
             Effect.go (Goroutine.regWorkerRun (defaultWorkerConfig secs verbose)),
             Effect.go (Goroutine.regWorkerRun (defaultWorkerConfig secs verbose)),
             Effect.go (Goroutine.regWorkerRun (defaultWorkerConfig secs verbose))],
            Outcome.returned))
      ∧ (∀ (e : emitter) (req : FwRequest), e.isProcessing = true →
          e.reqsQueue.length < e.reqsQueueCap →
          Send e req = ({ e with reqsQueue := e.reqsQueue ++ [req] },
            [Effect.measureDMRequestsForwarded 1], Outcome.returned))
      ∧ (∀ (e : emitter) (req : FwRequest), e.reqsQueueCap ≤ e.reqsQueue.length →
          Send e req = (e, [Effect.measureDMRequestsForwarded 1], Outcome.blocked))
      ∧ (∀ (secs verbose : Int) (req : FwRequest) (reqs : List FwRequest),
          reqs.length < 1000 →
          ∃ effects, sendAll (NewEmitter secs verbose) (req :: reqs)
              = ({ NewEmitter secs verbose with
                   isProcessing := true, reqsQueue := req :: reqs }, effects,
                  Outcome.returned)
            ∧ launches Goroutine.runFwReqConsumer effects = 1
            ∧ launches Goroutine.runReqsRegisteredConsumer effects = 1
            ∧ workerLaunches effects = 4) := by
  refine ⟨send_first, send_running, send_blocked, ?_⟩
  intro secs verbose req reqs hlen
  have hrest := sendAll_running reqs
    { NewEmitter secs verbose with isProcessing := true, reqsQueue := [req] } rfl (by
      simp [NewEmitter, defaultRequestsQueueLen]
      omega)
  refine ⟨[Effect.measureDMRequestsForwarded 1, Effect.go Goroutine.runFwReqConsumer,
      Effect.go Goroutine.runReqsRegisteredConsumer,
      Effect.go (Goroutine.regWorkerRun (defaultWorkerConfig secs verbose)),
      Effect.go (Goroutine.regWorkerRun (defaultWorkerConfig secs verbose)),
      Effect.go (Goroutine.regWorkerRun (defaultWorkerConfig secs verbose)),
      Effect.go (Goroutine.regWorkerRun (defaultWorkerConfig secs verbose))]
      ++ reqs.map fun _ => Effect.measureDMRequestsForwarded 1, ?_, ?_, ?_, ?_⟩
  · simp only [sendAll, send_first, hrest]
    rfl
  · simp [launches, List.countP_cons, List.countP_append]
  · simp [launches, List.countP_cons, List.countP_append]
  · simp [workerLaunches, List.countP_cons, List.countP_append]

/-- Witness of C6: a second `Send`, on a running emitter with one request waiting. -/
theorem send_state_machine_witness :
    Send { NewEmitter 60 0 with isProcessing := true, reqsQueue := [sampleRequest []] }
        (sampleRequest [sampleDataset "a" false])
      = ({ NewEmitter 60 0 with
           isProcessing := true
           reqsQueue := [sampleRequest [], sampleRequest [sampleDataset "a" false]] },
          [Effect.measureDMRequestsForwarded 1], Outcome.returned) :=
  send_state_machine.2.1
    { NewEmitter 60 0 with isProcessing := true, reqsQueue := [sampleRequest []] }
    (sampleRequest [sampleDataset "a" false]) rfl (by decide)

/-- C7: two callers of `Send` on a new emitter, scheduled so that both read the flag before
either sets it, launch the Forward-Request Consumer twice, the Registered-Request Consumer
twice and eight registration workers, and both return: the read of line 113 and the write
of line 114 are two separate atomic operations. -/
theorem concurrent_send_double_start :
    launches Goroutine.runFwReqConsumer
        (runProducers twoCallers [0, 1, 0, 1, 0, 1, 0, 1]).effects = 2
      ∧ launches Goroutine.runReqsRegisteredConsumer
          (runProducers twoCallers [0, 1, 0, 1, 0, 1, 0, 1]).effects = 2
      ∧ workerLaunches (runProducers twoCallers [0, 1, 0, 1, 0, 1, 0, 1]).effects = 8
      ∧ (runProducers twoCallers [0, 1, 0, 1, 0, 1, 0, 1]).e.reqsQueue.length = 2
      ∧ (runProducers twoCallers [0, 1, 0, 1, 0, 1, 0, 1]).callers.all SendPc.hasReturned
        = true := by
  decide

/-- The same two callers one after the other: everything is launched once. -/
theorem sequential_send_single_start :
    launches Goroutine.runFwReqConsumer
        (runProducers twoCallers [0, 0, 0, 0, 1, 1, 1, 1]).effects = 1
      ∧ launches Goroutine.runReqsRegisteredConsumer
          (runProducers twoCallers [0, 0, 0, 0, 1, 1, 1, 1]).effects = 1
      ∧ workerLaunches (runProducers twoCallers [0, 0, 0, 0, 1, 1, 1, 1]).effects = 4
      ∧ (runProducers twoCallers [0, 0, 0, 0, 1, 1, 1, 1]).callers.all SendPc.hasReturned
        = true := by
  decide

/-! ## Theorems: emission of one dataset -/

/-- The `EmitEvent` calls of the loop of `emitEvent` are those of the events that build. -/
theorem emittedEvents_loop {σ : Type} (C : Collaborators σ) (emitter : PluginEmitter)
    (dataSet : Dataset) (shared : List Opt) (events : List EventData) :
    emittedEvents (emitEventLoop C emitter dataSet shared events)
      = (events.filterMap fun event => (C.NewEventData (eventOpts shared event)).toOption).map
          fun e => (emitter, e, dataSet.Entity.Name) := by
  induction events with
  | nil => rfl
  | cons event rest ih =>
    cases h : C.NewEventData (eventOpts shared event) with
    | error err => simp [emitEventLoop, h, emittedEvents, ih, Except.toOption]
    | ok e => simp [emitEventLoop, h, emittedEvents, ih, Except.toOption]

/-- The loop of `emitEvent` makes one call for each event: `EmitEvent` or a warning. -/
theorem length_emitEventLoop {σ : Type} (C : Collaborators σ) (emitter : PluginEmitter)
    (dataSet : Dataset) (shared : List Opt) (events : List EventData) :
    (emitEventLoop C emitter dataSet shared events).length = events.length := by
  induction events with
  | nil => rfl
  | cons event rest ih =>
    cases h : C.NewEventData (eventOpts shared event) <;> simp [emitEventLoop, h, ih]

/-- C8: the `EmitEvent` calls of `emitEvent` are, in the original order, the records of the
events for which `protocol.NewEventData` succeeds, each with the emitter and the entity name
of the dataset as key; their number is the number of events that build, and every event gets
exactly one call (`EmitEvent` or the warning), so a failing event stops nothing after it. -/
theorem emitEvent_forwards_built_events {σ : Type} (C : Collaborators σ)
    (emitter : PluginEmitter) (metadata : Definition) (dataSet : Dataset)
    (labels annotations : Labels) (entityID : ID) :
    emittedEvents (emitEvent C emitter metadata dataSet labels annotations entityID)
        = (dataSet.Events.filterMap fun event =>
            (C.NewEventData (eventOpts
              (sharedOpts C metadata dataSet labels annotations entityID) event)).toOption).map
            (fun e => (emitter, e, dataSet.Entity.Name))
      ∧ (emittedEvents (emitEvent C emitter metadata dataSet labels annotations entityID)).length
        = dataSet.Events.countP (fun event =>
            (C.NewEventData (eventOpts
              (sharedOpts C metadata dataSet labels annotations entityID) event)).toBool)
      ∧ (emitEvent C emitter metadata dataSet labels annotations entityID).length
        = dataSet.Events.length := by
  refine ⟨emittedEvents_loop C emitter dataSet _ _, ?_,
    length_emitEventLoop C emitter dataSet _ _⟩
  rw [emitEvent, emittedEvents_loop, List.length_map]
  generalize sharedOpts C metadata dataSet labels annotations entityID = shared
  induction dataSet.Events with
  | nil => rfl
  | cons event rest ih =>
    cases h : C.NewEventData (eventOpts shared event) <;>
      simpa [List.filterMap_cons, List.countP_cons, h, Except.toOption, Except.toBool] using ih

/-- Witness of C8: of the two events of `sampleFullDataset` the first builds and is emitted
under the key `host-A`, the second (no summary) is skipped. -/
theorem emitEvent_forwards_built_events_witness :
    emittedEvents (emitEvent sampleCollaborators
        { PluginID := "nri-test/nri-test", Name := "nri-test" }
        { Name := "nri-test", Interval := 30, ExecutorConfig := { User := "root" } }
        sampleFullDataset [("env", "test")] [] 42)
      = [({ PluginID := "nri-test/nri-test", Name := "nri-test" },
          [("summary", Value.string "up")], "host-A")] :=
  (emitEvent_forwards_built_events sampleCollaborators
    { PluginID := "nri-test/nri-test", Name := "nri-test" }
    { Name := "nri-test", Interval := 30, ExecutorConfig := { User := "root" } }
    sampleFullDataset [("env", "test")] [] 42).1.trans rfl

/-- C9: with a non-empty inventory `emitInventory` makes exactly one call, `EmitInventory`
with the built inventory and the entity of key `dataSet.Entity.Name` and identifier
`entityID`; with an empty inventory it makes none; it makes a call if and only if the
inventory is non-empty. -/
theorem emitInventory_calls {σ : Type} (C : Collaborators σ) (emitter : PluginEmitter)
    (metadata : Definition) (integrationMetadata : IntegrationMetadata) (entityID : ID)
    (dataSet : Dataset) (labels : Labels) :
    (dataSet.Inventory ≠ [] →
        emitInventory C emitter metadata integrationMetadata entityID dataSet labels
          = [EmitCall.EmitInventory emitter
              (C.BuildInventoryDataSet dataSet.Inventory labels metadata.ExecutorConfig.User
                integrationMetadata.Name dataSet.Entity.Name)
              { Key := dataSet.Entity.Name, ID := entityID }])
      ∧ (dataSet.Inventory = [] →
        emitInventory C emitter metadata integrationMetadata entityID dataSet labels = [])
      ∧ (emitInventory C emitter metadata integrationMetadata entityID dataSet labels ≠ []
        ↔ dataSet.Inventory ≠ []) := by
  cases h : dataSet.Inventory with
  | nil => simp [emitInventory, h]
  | cons item items => simp [emitInventory, h]

/-- Witness of C9: a dataset of `host-A` with one inventory item, identifier 42. -/
theorem emitInventory_calls_witness :
    sampleFullDataset.Inventory ≠ []
      ∧ emitInventory sampleCollaborators { PluginID := "nri-test/nri-test", Name := "nri-test" }
          { Name := "nri-test", Interval := 30, ExecutorConfig := { User := "root" } }
          { Name := "nri-test", Version := "1.0" } 42 sampleFullDataset [("env", "test")]
        = [EmitCall.EmitInventory { PluginID := "nri-test/nri-test", Name := "nri-test" }
            { raw := "1/root/nri-test/host-A" } { Key := "host-A", ID := 42 }] :=
  ⟨by decide,
    ((emitInventory_calls sampleCollaborators
      { PluginID := "nri-test/nri-test", Name := "nri-test" }
      { Name := "nri-test", Interval := 30, ExecutorConfig := { User := "root" } }
      { Name := "nri-test", Version := "1.0" } 42 sampleFullDataset [("env", "test")]).1
        (by decide)).trans rfl⟩

/-- Submissions of two consecutive lists of calls. -/
theorem submissions_append (a b : List EmitCall) :
    submissions (a ++ b) = submissions a ++ submissions b := by
  induction a with
  | nil => rfl
  | cons x a ih => cases x <;> simp [submissions, ih]

/-- The function `emitInventory` submits nothing to the metrics sender. -/
theorem submissions_emitInventory {σ : Type} (C : Collaborators σ) (emitter : PluginEmitter)
    (metadata : Definition) (integrationMetadata : IntegrationMetadata) (entityID : ID)
    (dataSet : Dataset) (labels : Labels) :
    submissions (emitInventory C emitter metadata integrationMetadata entityID dataSet labels)
      = [] := by
  unfold emitInventory
  split <;> rfl

/-- The loop of `emitEvent` submits nothing to the metrics sender. -/
theorem submissions_emitEventLoop {σ : Type} (C : Collaborators σ) (emitter : PluginEmitter)
    (dataSet : Dataset) (shared : List Opt) (events : List EventData) :
    submissions (emitEventLoop C emitter dataSet shared events) = [] := by
  induction events with
  | nil => rfl
  | cons event rest ih =>
    cases h : C.NewEventData (eventOpts shared event) <;>
      simp [emitEventLoop, h, submissions, ih]

/-- The calls of `emitMetrics`: one submission, and a warning when it fails. -/
theorem emitMetrics_calls {σ : Type} (C : Collaborators σ) (metricSender : σ)
    (metadata : Definition) (dataset : Dataset) (annotations labels : Labels) :
    emitMetrics C metricSender metadata dataset annotations labels
      = ((C.SendMetricsWithCommonAttributes metricSender dataset.Common
            (C.ProcessMetrics
              { IntegrationInterval := metadata.Interval, IntegrationLabels := labels,
                IntegrationExtraAnnotations := annotations }
              dataset.Metrics dataset.Common dataset.Entity)).1,
          EmitCall.SendMetricsWithCommonAttributes dataset.Common
            (C.ProcessMetrics
              { IntegrationInterval := metadata.Interval, IntegrationLabels := labels,
                IntegrationExtraAnnotations := annotations }
              dataset.Metrics dataset.Common dataset.Entity)
          :: match (C.SendMetricsWithCommonAttributes metricSender dataset.Common
              (C.ProcessMetrics
                { IntegrationInterval := metadata.Interval, IntegrationLabels := labels,
                  IntegrationExtraAnnotations := annotations }
                dataset.Metrics dataset.Common dataset.Entity)).2 with
            | some err => [EmitCall.WarnCouldNotSendMetrics metadata.Name err]
            | none => []) := by
  unfold emitMetrics
  rcases h : C.SendMetricsWithCommonAttributes metricSender dataset.Common
      (C.ProcessMetrics
        { IntegrationInterval := metadata.Interval, IntegrationLabels := labels,
          IntegrationExtraAnnotations := annotations }
        dataset.Metrics dataset.Common dataset.Entity) with ⟨s, e⟩
  cases e <;> simp [h]

/-- The one submission of `emitDataset`. -/
theorem submissions_emitDataset {σ : Type} (C : Collaborators σ) (metricsSender : σ)
    (r : EntityFwRequest) :
    submissions (emitDataset C metricsSender r).2
      = [(r.Data.Common, C.ProcessMetrics
          { IntegrationInterval := r.Definition.Interval
            IntegrationLabels := (C.LabelsAndExtraAnnotations r).1
            IntegrationExtraAnnotations := (C.LabelsAndExtraAnnotations r).2 }
          r.Data.Metrics r.Data.Common r.Data.Entity)] := by
  simp only [emitDataset, emitMetrics_calls, submissions_append, submissions_emitInventory,
    emitEvent, submissions_emitEventLoop, List.nil_append]
  cases (C.SendMetricsWithCommonAttributes metricsSender r.Data.Common
      (C.ProcessMetrics
        { IntegrationInterval := r.Definition.Interval
          IntegrationLabels := (C.LabelsAndExtraAnnotations r).1
          IntegrationExtraAnnotations := (C.LabelsAndExtraAnnotations r).2 }
        r.Data.Metrics r.Data.Common r.Data.Entity)).2 <;> rfl

/-- Consecutive calls of `emitDataset` submit once each. -/
theorem length_submissions_emitDatasets {σ : Type} (C : Collaborators σ)
    (rs : List EntityFwRequest) (metricsSender : σ) :
    (submissions (emitDatasets C metricsSender rs).2).length = rs.length := by
  induction rs generalizing metricsSender with
  | nil => rfl
  | cons r rs ih =>
    simp only [emitDatasets, submissions_append, List.length_append, List.length_cons, ih,
      submissions_emitDataset]
    simp
    omega

/-- C10: whatever the collaborators answer, `emitDataset` submits to the metrics sender
exactly once, with the common attributes of the dataset and the metrics normalized by
`ProcessMetrics`; `emitMetrics` makes that submission and, when the sender returns an error,
only logs a warning and returns; consecutive calls of `emitDataset` submit once each. -/
theorem emitDataset_submits_metrics_once {σ : Type} (C : Collaborators σ) (metricsSender : σ)
    (r : EntityFwRequest) :
    submissions (emitDataset C metricsSender r).2
        = [(r.Data.Common, C.ProcessMetrics
            { IntegrationInterval := r.Definition.Interval
              IntegrationLabels := (C.LabelsAndExtraAnnotations r).1
              IntegrationExtraAnnotations := (C.LabelsAndExtraAnnotations r).2 }
            r.Data.Metrics r.Data.Common r.Data.Entity)]
      ∧ (∀ (metadata : Definition) (dataset : Dataset) (annotations labels : Labels),
          (emitMetrics C metricsSender metadata dataset annotations labels).2
            = EmitCall.SendMetricsWithCommonAttributes dataset.Common
                (C.ProcessMetrics
                  { IntegrationInterval := metadata.Interval, IntegrationLabels := labels,
                    IntegrationExtraAnnotations := annotations }
                  dataset.Metrics dataset.Common dataset.Entity)
              :: match (C.SendMetricsWithCommonAttributes metricsSender dataset.Common
                  (C.ProcessMetrics
                    { IntegrationInterval := metadata.Interval, IntegrationLabels := labels,
                      IntegrationExtraAnnotations := annotations }
                    dataset.Metrics dataset.Common dataset.Entity)).2 with
                | some err => [EmitCall.WarnCouldNotSendMetrics metadata.Name err]
                | none => [])
      ∧ (∀ rs : List EntityFwRequest,
          (submissions (emitDatasets C metricsSender rs).2).length = rs.length) :=
  ⟨submissions_emitDataset C metricsSender r,
    fun metadata dataset annotations labels => by rw [emitMetrics_calls],
    fun rs => length_submissions_emitDatasets C rs metricsSender⟩

/-- Witness of C10: two consecutive requests, the first submission rejected by the sender;
both are submitted. -/
theorem emitDataset_submits_metrics_once_witness :
    (submissions (emitDatasets sampleCollaborators 1
      [sampleEntityFwRequest 0, sampleEntityFwRequest 7]).2).length = 2 :=
  (emitDataset_submits_metrics_once sampleCollaborators 1 (sampleEntityFwRequest 0)).2.2
    [sampleEntityFwRequest 0, sampleEntityFwRequest 7]


/-! ## Theorems: `replaceEntityName` -/

/-- The variable of the caller is the same before and after a call of `replaceEntityName`;
the new name ends up in the parameter only. -/
theorem replaceEntityName_caller (Apply : String → String)
    (ReplaceLocalhost : String → String → String) (x : EntityFields)
    (agentShortName : String) :
    (replaceEntityName Apply ReplaceLocalhost x agentShortName).caller = x
      ∧ (replaceEntityName Apply ReplaceLocalhost x agentShortName).entity.Name
        = ReplaceLocalhost (Apply x.Name) agentShortName :=
  ⟨rfl, rfl⟩

/-- C11: with no rewrite and a replacement of the name `localhost` by the agent short name,
a call on the entity `localhost` for the agent `agent-host` leaves the entity of the caller
with the name `localhost`, not with the replaced name `agent-host`. -/
theorem replaceEntityName_keeps_name :
    (replaceEntityName (fun name => name)
        (fun name short => if name = "localhost" then short else name)
        { Name := "localhost" } "agent-host").caller.Name = "localhost"
      ∧ (fun name short => if name = "localhost" then short else name)
          ((fun name : String => name) "localhost") "agent-host" = "agent-host"
      ∧ (replaceEntityName (fun name => name)
          (fun name short => if name = "localhost" then short else name)
          { Name := "localhost" } "agent-host").caller.Name ≠ "agent-host" := by
  decide

/-! ## Theorems: the options of an event -/

/-- Membership in the shared options. -/
theorem mem_sharedOpts {σ : Type} (C : Collaborators σ) (metadata : Definition)
    (dataSet : Dataset) (labels annotations : Labels) (entityID : ID) (o : Opt) :
    o ∈ sharedOpts C metadata dataSet labels annotations entityID
      ↔ o = Opt.WithLabels labels ∨ o = Opt.WithAnnotations annotations
        ∨ (C.IsEmpty entityID = false
          ∧ o = Opt.WithEntity { Key := dataSet.Entity.Name, ID := entityID })
        ∨ (metadata.ExecutorConfig.User ≠ ""
          ∧ o = Opt.WithIntegrationUser metadata.ExecutorConfig.User) := by
  unfold sharedOpts
  cases h : C.IsEmpty entityID <;> by_cases hu : metadata.ExecutorConfig.User = "" <;>
    simp [h, hu]

/-- Membership in the options of one event. -/
theorem mem_eventOpts (shared : List Opt) (event : EventData) (o : Opt) :
    o ∈ eventOpts shared event
      ↔ o ∈ shared ∨ o = Opt.WithEvents event
        ∨ ∃ t, event.lookup "attributes" = some (Value.mapping t)
          ∧ o = Opt.WithAttributes t := by
  unfold eventOpts attributesFromEvent
  split
  · next t h => simp [h, or_assoc]
  · next h =>
    simp only [List.mem_append, List.mem_singleton, or_assoc]
    constructor
    · rintro (h1 | h1)
      · exact Or.inl h1
      · exact Or.inr (Or.inl h1)
    · rintro (h1 | h1 | ⟨t, ht, _⟩)
      · exact Or.inl h1
      · exact Or.inr h1
      · exact absurd ht (h t)


/-- The loop of `emitEvent` makes, for each event in turn, the call decided by
`protocol.NewEventData` on the options of that event. -/
theorem emitEventLoop_eq_map {σ : Type} (C : Collaborators σ) (emitter : PluginEmitter)
    (dataSet : Dataset) (shared : List Opt) (events : List EventData) :
    emitEventLoop C emitter dataSet shared events
      = events.map fun event =>
          match C.NewEventData (eventOpts shared event) with
          | Except.error err => EmitCall.WarnDiscardingEvent event err
          | Except.ok e => EmitCall.EmitEvent emitter e dataSet.Entity.Name := by
  induction events with
  | nil => rfl
  | cons event rest ih =>
    cases h : C.NewEventData (eventOpts shared event) <;> simp [emitEventLoop, h, ih]

/-- C12: `emitEvent` builds each event of the dataset from the options
`eventOpts (sharedOpts ...) event`. These contain the entity reference (key the entity name
of the dataset, identifier `entityID`) if and only if `entityID` is not empty, and no other
entity reference; the integration user if and only if the executor user is not the empty
string, and no other user; and always the labels, the extra annotations and the event. With
an empty identifier they contain no entity reference at all. -/
theorem emitEvent_options {σ : Type} (C : Collaborators σ) (emitter : PluginEmitter)
    (metadata : Definition) (dataSet : Dataset) (labels annotations : Labels) (entityID : ID)
    (event : EventData) :
    emitEvent C emitter metadata dataSet labels annotations entityID
        = dataSet.Events.map (fun event =>
            match C.NewEventData
              (eventOpts (sharedOpts C metadata dataSet labels annotations entityID) event) with
            | Except.error err => EmitCall.WarnDiscardingEvent event err
            | Except.ok e => EmitCall.EmitEvent emitter e dataSet.Entity.Name)
      ∧ (Opt.WithEntity { Key := dataSet.Entity.Name, ID := entityID }
          ∈ eventOpts (sharedOpts C metadata dataSet labels annotations entityID) event
        ↔ C.IsEmpty entityID = false)
      ∧ (∀ e : Entity, Opt.WithEntity e
          ∈ eventOpts (sharedOpts C metadata dataSet labels annotations entityID) event →
          e = { Key := dataSet.Entity.Name, ID := entityID })
      ∧ (Opt.WithIntegrationUser metadata.ExecutorConfig.User
          ∈ eventOpts (sharedOpts C metadata dataSet labels annotations entityID) event
        ↔ metadata.ExecutorConfig.User ≠ "")
      ∧ (∀ u : String, Opt.WithIntegrationUser u
          ∈ eventOpts (sharedOpts C metadata dataSet labels annotations entityID) event →
          u = metadata.ExecutorConfig.User)
      ∧ Opt.WithLabels labels
          ∈ eventOpts (sharedOpts C metadata dataSet labels annotations entityID) event
      ∧ Opt.WithAnnotations annotations
          ∈ eventOpts (sharedOpts C metadata dataSet labels annotations entityID) event
      ∧ Opt.WithEvents event
          ∈ eventOpts (sharedOpts C metadata dataSet labels annotations entityID) event
      ∧ (C.IsEmpty entityID = true → ∀ e : Entity, Opt.WithEntity e
          ∉ eventOpts (sharedOpts C metadata dataSet labels annotations entityID) event) := by
  refine ⟨emitEventLoop_eq_map C emitter dataSet _ _, ?_, ?_, ?_, ?_, ?_, ?_, ?_, ?_⟩
  · simp [mem_eventOpts, mem_sharedOpts]
  · intro e he
    simp only [mem_eventOpts, mem_sharedOpts] at he
    rcases he with (h | h | ⟨_, h⟩ | ⟨_, h⟩) | h | ⟨t, _, h⟩
    all_goals first | (cases h; done) | (cases h; rfl)
  · simp [mem_eventOpts, mem_sharedOpts]
  · intro u hu
    have := hu
    simp only [mem_eventOpts, mem_sharedOpts] at this
    rcases this with (h | h | ⟨_, h⟩ | ⟨_, h⟩) | h | ⟨t, _, h⟩
    all_goals first | (cases h; done) | (cases h; rfl)
  · simp [mem_eventOpts, mem_sharedOpts]
  · simp [mem_eventOpts, mem_sharedOpts]
  · simp [mem_eventOpts, mem_sharedOpts]
  · intro hempty e he
    simp [mem_eventOpts, mem_sharedOpts, hempty] at he


/-- Witness of C12: with the empty identifier 0 the options of an event of `sampleFullDataset`
hold no entity reference. -/
theorem emitEvent_options_witness :
    sampleCollaborators.IsEmpty 0 = true
      ∧ ∀ e : Entity, Opt.WithEntity e
        ∉ eventOpts (sharedOpts sampleCollaborators
            { Name := "nri-test", Interval := 30, ExecutorConfig := { User := "root" } }
            sampleFullDataset [("env", "test")] [] 0) [("summary", Value.string "up")] :=
  ⟨rfl, (emitEvent_options sampleCollaborators
    { PluginID := "nri-test/nri-test", Name := "nri-test" }
    { Name := "nri-test", Interval := 30, ExecutorConfig := { User := "root" } }
    sampleFullDataset [("env", "test")] [] 0 [("summary", Value.string "up")]).2.2.2.2.2.2.2.2
      rfl⟩

/-! ## Theorems: `attributesFromEvent` -/

/-- C13: `attributesFromEvent` appends the one option `WithAttributes t` when the event has
the key "attributes" with a mapping `t` as value, and returns the option list as it is when
the key is absent or its value is not a mapping. It is a total function, and the given
options always stay, in their order, at the start of the result. -/
theorem attributesFromEvent_spec (event : EventData) (builder : List Opt) :
    (∀ t, event.lookup "attributes" = some (Value.mapping t) →
        attributesFromEvent event builder = builder ++ [Opt.WithAttributes t])
      ∧ (event.lookup "attributes" = none → attributesFromEvent event builder = builder)
      ∧ (∀ v, event.lookup "attributes" = some v → (∀ t, v ≠ Value.mapping t) →
        attributesFromEvent event builder = builder)
      ∧ builder <+: attributesFromEvent event builder
      ∧ (attributesFromEvent event builder).length ≤ builder.length + 1 := by
  refine ⟨?_, ?_, ?_, ?_, ?_⟩
  · intro t h
    simp [attributesFromEvent, h]
  · intro h
    simp [attributesFromEvent, h]
  · intro v h hv
    unfold attributesFromEvent
    split
    · next t ht =>
      rw [h] at ht
      exact absurd (Option.some.inj ht) (hv t)
    · rfl
  · unfold attributesFromEvent
    split
    · exact List.prefix_append _ _
    · exact List.prefix_refl _
  · unfold attributesFromEvent
    split <;> simp

/-- Witness of C13: an event with a mapping under "attributes", and one with a string. -/
theorem attributesFromEvent_spec_witness :
    attributesFromEvent
        [("summary", Value.string "up"),
          ("attributes", Value.mapping [("zone", Value.string "a")])]
        [Opt.WithLabels []]
      = [Opt.WithLabels [], Opt.WithAttributes [("zone", Value.string "a")]]
    ∧ attributesFromEvent [("attributes", Value.string "zone")] [Opt.WithLabels []]
      = [Opt.WithLabels []] :=
  ⟨(attributesFromEvent_spec
      [("summary", Value.string "up"),
        ("attributes", Value.mapping [("zone", Value.string "a")])]
      [Opt.WithLabels []]).1 [("zone", Value.string "a")] rfl,
    (attributesFromEvent_spec [("attributes", Value.string "zone")]
      [Opt.WithLabels []]).2.2.1 (Value.string "zone") rfl (fun _ h => Value.noConfusion h)⟩

/-! ## Theorems: the composed emit error, `nil` and panics -/

/-- C15: `composeEmitError` returns `nil` if and only if the list of errors is empty,
whatever the dataset count; for a non-empty list it returns an error with a text; and the
final slice never panics, since the composed text always holds the header, also when a
message is the empty string. -/
theorem composeEmitError_nil_iff (emitErrs : List String) (dataSetLength : Int) :
    (composeEmitError emitErrs dataSetLength = some none ↔ emitErrs = [])
      ∧ (emitErrs ≠ [] → ∃ text, composeEmitError emitErrs dataSetLength = some (some text))
      ∧ composeEmitError emitErrs dataSetLength ≠ none := by
  cases h : emitErrs with
  | nil => simp [composeEmitError]
  | cons msg rest =>
    have heq := composeEmitError_eq (msg :: rest) dataSetLength (List.cons_ne_nil _ _)
    refine ⟨?_, ?_, ?_⟩
    · rw [heq]
      simp
    · intro _
      exact ⟨_, heq⟩
    · rw [heq]
      simp

/-- Witness of C15: a single error whose message is the empty string. -/
theorem composeEmitError_nil_iff_witness :
    [""] ≠ ([] : List String)
      ∧ ∃ text, composeEmitError [""] 5 = some (some text) :=
  ⟨by decide, (composeEmitError_nil_iff [""] 5).2.1 (by decide)⟩

/-! ## Theorems: `Group.Run` -/

/-- The loop of `Group.Run` adds one launch for each definition, in order, and sets the
result when there is a definition. -/
theorem group_runLoop_eq {R : Type}
    (NewRunner : NewRunnerFn R)
    (g : Group) (ctx : String) (integrations : List Definition)
    (launched : List (RunnerLaunch R)) (started : Bool) :
    Group.runLoop NewRunner g ctx integrations (launched, started)
      = (launched ++ integrations.map (fun integr =>
            { runner := NewRunner integr g.emitter g.dSources g.handleErrorsProvide
                g.cmdReqHandle g.configHandle g.terminateDefinitionQ g.idLookup
              ctx := ctx }),
          started || !integrations.isEmpty) := by
  induction integrations generalizing launched started with
  | nil => simp [Group.runLoop]
  | cons integr rest ih => simp [Group.runLoop, ih]

/-- C16: `Group.Run` launches one runner for each integration definition of the group, in
the order of the definitions, each built by `NewRunner` from the definition, the emitter of
the group and its other fields, and started with the given context; it returns true if and
only if the group has at least one integration. -/
theorem group_run_launches {R : Type}
    (NewRunner : NewRunnerFn R)
    (g : Group) (ctx : String) :
    (Group.Run NewRunner g ctx).1
        = g.integrations.map (fun integr =>
            { runner := NewRunner integr g.emitter g.dSources g.handleErrorsProvide
                g.cmdReqHandle g.configHandle g.terminateDefinitionQ g.idLookup
              ctx := ctx })
      ∧ (Group.Run NewRunner g ctx).1.length = g.integrations.length
      ∧ ((Group.Run NewRunner g ctx).2 = true ↔ g.integrations ≠ [])
      ∧ (g.integrations = [] → (Group.Run NewRunner g ctx).2 = false) := by
  rw [Group.Run, group_runLoop_eq]
  refine ⟨by simp, by simp, ?_, ?_⟩
  · cases g.integrations <;> simp
  · intro h
    simp [h]


/-- Witness of C16: a group with two integrations, and a group with none. -/
theorem group_run_launches_witness :
    (Group.Run (fun integr emitter _ _ _ _ _ _ => (integr.Name, emitter))
        { dSources := "sources", integrations :=
            [{ Name := "nri-a", Interval := 30, ExecutorConfig := { User := "" } },
             { Name := "nri-b", Interval := 15, ExecutorConfig := { User := "" } }],
          emitter := "emitter", handleErrorsProvide := "", cmdReqHandle := "",
          configHandle := "", terminateDefinitionQ := "", idLookup := "" } "ctx").2 = true
      ∧ (Group.Run (fun integr emitter _ _ _ _ _ _ => (integr.Name, emitter))
        { dSources := "sources", integrations := [],
          emitter := "emitter", handleErrorsProvide := "", cmdReqHandle := "",
          configHandle := "", terminateDefinitionQ := "", idLookup := "" } "ctx").2 = false :=
  ⟨(group_run_launches (fun integr emitter _ _ _ _ _ _ => (integr.Name, emitter))
      { dSources := "sources", integrations :=
          [{ Name := "nri-a", Interval := 30, ExecutorConfig := { User := "" } },
           { Name := "nri-b", Interval := 15, ExecutorConfig := { User := "" } }],
        emitter := "emitter", handleErrorsProvide := "", cmdReqHandle := "",
        configHandle := "", terminateDefinitionQ := "", idLookup := "" } "ctx").2.2.1.mpr
      (by decide),
    (group_run_launches (fun integr emitter _ _ _ _ _ _ => (integr.Name, emitter))
      { dSources := "sources", integrations := [],
        emitter := "emitter", handleErrorsProvide := "", cmdReqHandle := "",
        configHandle := "", terminateDefinitionQ := "", idLookup := "" } "ctx").2.2.2 rfl⟩

/-! ## Theorems: cancellation of the Forward-Request Consumer -/

/-- A consumer that has returned takes no further step. -/
theorem stepFwReqConsumer_returned (c : Consumer) (p : Bool) (h : c.loc = Loc.returned) :
    stepFwReqConsumer c p = c := by
  simp [stepFwReqConsumer, h]

/-- A step of the consumer does not change the state of the context. -/
theorem stepFwReqConsumer_cancelled (c : Consumer) (p : Bool) :
    (stepFwReqConsumer c p).cancelled = c.cancelled := by
  obtain ⟨e, cancelled, loc, effects⟩ := c
  cases loc with
  | returned => rfl
  | top =>
    cases hq : e.reqsQueue with
    | nil => cases cancelled <;> simp [stepFwReqConsumer, hq, exitConsumer]
    | cons req queue =>
      cases cancelled <;> cases p <;> simp [stepFwReqConsumer, hq, exitConsumer]
  | datasets req rest =>
    cases rest with
    | nil => rfl
    | cons ds rest => cases cancelled <;> simp [stepFwReqConsumer, exitConsumer]

/-- The dispatches of two consecutive lists of effects. -/
theorem dispatched_append (a b : List Effect) :
    dispatched (a ++ b) = dispatched a ++ dispatched b := by
  induction a with
  | nil => rfl
  | cons x a ih => cases x <;> simp [dispatched, ih]

/-- With the context cancelled a step dispatches nothing and brings the return nearer. -/
theorem stepFwReqConsumer_after_cancel (c : Consumer) (p : Bool) (h : c.cancelled = true) :
    dispatched (stepFwReqConsumer c p).effects = dispatched c.effects
      ∧ stepsToReturn (stepFwReqConsumer c p) ≤ stepsToReturn c - 1 := by
  obtain ⟨e, cancelled, loc, effects⟩ := c
  simp only at h
  subst h
  cases loc with
  | returned => simp [stepFwReqConsumer, stepsToReturn]
  | top =>
    cases hq : e.reqsQueue with
    | nil => simp [stepFwReqConsumer, hq, exitConsumer, stepsToReturn]
    | cons req queue =>
      cases p
      · cases hd : req.Data.DataSets <;>
          simp [stepFwReqConsumer, hq, hd, stepsToReturn, dispatched_append, dispatched] <;>
          omega
      · simp [stepFwReqConsumer, hq, exitConsumer, stepsToReturn]
  | datasets req rest =>
    cases rest with
    | nil => simp [stepFwReqConsumer, stepsToReturn]
    | cons ds rest => simp [stepFwReqConsumer, exitConsumer, stepsToReturn]

/-- A step changes the running flag only by returning, returns only when the context is
cancelled, and then clears the flag. -/
theorem stepFwReqConsumer_flag (c : Consumer) (p : Bool) (h : c.loc ≠ Loc.returned) :
    ((stepFwReqConsumer c p).loc ≠ Loc.returned →
        (stepFwReqConsumer c p).e.isProcessing = c.e.isProcessing)
      ∧ ((stepFwReqConsumer c p).loc = Loc.returned →
        (stepFwReqConsumer c p).e.isProcessing = false ∧ c.cancelled = true
          ∧ (stepFwReqConsumer c p).effects = c.effects) := by
  obtain ⟨e, cancelled, loc, effects⟩ := c
  cases loc with
  | returned => exact absurd rfl h
  | top =>
    cases hq : e.reqsQueue with
    | nil => cases cancelled <;> simp [stepFwReqConsumer, hq, exitConsumer]
    | cons req queue =>
      cases cancelled <;> cases p <;> simp [stepFwReqConsumer, hq, exitConsumer]
  | datasets req rest =>
    cases rest with
    | nil => simp [stepFwReqConsumer]
    | cons ds rest => cases cancelled <;> simp [stepFwReqConsumer, exitConsumer]


/-- A consumer has returned exactly when no step is left. -/
theorem stepsToReturn_eq_zero (c : Consumer) : stepsToReturn c = 0 ↔ c.loc = Loc.returned := by
  obtain ⟨e, cancelled, loc, effects⟩ := c
  cases loc with
  | returned => simp [stepsToReturn]
  | top => simp [stepsToReturn]
  | datasets req rest => cases rest <;> simp [stepsToReturn]

/-- The bound on the steps left in terms of the requests waiting. -/
theorem stepsToReturn_le (c : Consumer) : stepsToReturn c ≤ 2 * c.e.reqsQueue.length + 2 := by
  obtain ⟨e, cancelled, loc, effects⟩ := c
  cases loc with
  | returned => simp [stepsToReturn]
  | top => simp [stepsToReturn]
  | datasets req rest => cases rest <;> simp [stepsToReturn]

/-- A consumer that has returned stays as it is. -/
theorem runFwReqConsumer_returned (picks : List Bool) (c : Consumer)
    (h : c.loc = Loc.returned) : runFwReqConsumer c picks = c := by
  induction picks with
  | nil => rfl
  | cons p picks ih =>
    have : runFwReqConsumer c (p :: picks) = runFwReqConsumer (stepFwReqConsumer c p) picks :=
      rfl
    rw [this, stepFwReqConsumer_returned c p h, ih]

/-- With the context cancelled a run dispatches nothing and uses up the steps left. -/
theorem runFwReqConsumer_after_cancel (picks : List Bool) (c : Consumer)
    (h : c.cancelled = true) :
    dispatched (runFwReqConsumer c picks).effects = dispatched c.effects
      ∧ stepsToReturn (runFwReqConsumer c picks) ≤ stepsToReturn c - picks.length := by
  induction picks generalizing c with
  | nil => simp [runFwReqConsumer]
  | cons p picks ih =>
    have hrun : runFwReqConsumer c (p :: picks)
        = runFwReqConsumer (stepFwReqConsumer c p) picks := rfl
    have hc : (stepFwReqConsumer c p).cancelled = true := by
      rw [stepFwReqConsumer_cancelled, h]
    obtain ⟨h1, h2⟩ := stepFwReqConsumer_after_cancel c p h
    obtain ⟨h3, h4⟩ := ih (stepFwReqConsumer c p) hc
    rw [hrun]
    refine ⟨h3.trans h1, ?_⟩
    simp only [List.length_cons]
    omega

/-- Over a run: the flag keeps its value while the consumer has not returned; a consumer that
returns has its flag cleared, and it returns only with the context cancelled. -/
theorem runFwReqConsumer_flag (picks : List Bool) (c : Consumer) (h : c.loc ≠ Loc.returned) :
    ((runFwReqConsumer c picks).loc ≠ Loc.returned →
        (runFwReqConsumer c picks).e.isProcessing = c.e.isProcessing)
      ∧ ((runFwReqConsumer c picks).loc = Loc.returned →
        (runFwReqConsumer c picks).e.isProcessing = false ∧ c.cancelled = true) := by
  induction picks generalizing c with
  | nil => exact ⟨fun _ => rfl, fun h2 => absurd h2 h⟩
  | cons p picks ih =>
    have hrun : runFwReqConsumer c (p :: picks)
        = runFwReqConsumer (stepFwReqConsumer c p) picks := rfl
    obtain ⟨h1, h2⟩ := stepFwReqConsumer_flag c p h
    rw [hrun]
    by_cases hret : (stepFwReqConsumer c p).loc = Loc.returned
    · rw [runFwReqConsumer_returned picks _ hret]
      exact ⟨fun hn => absurd hret hn, fun _ => ⟨(h2 hret).1, (h2 hret).2.1⟩⟩
    · obtain ⟨h3, h4⟩ := ih (stepFwReqConsumer c p) hret
      refine ⟨fun hn => (h3 hn).trans (h1 hret), fun hr => ⟨(h4 hr).1, ?_⟩⟩
      rw [← stepFwReqConsumer_cancelled c p]
      exact (h4 hr).2

/-- C14: the cancellation of the Forward-Request Consumer. With the context cancelled, the
step before a dataset returns; so does the step at the top of the loop when no request
waits or when the `select` takes the case of the context. A return leaves the position
`returned`, clears the running flag and makes no call, and nothing follows it. From the
cancellation on no dataset is dispatched any more, whatever the `select` chooses, and the
consumer returns, with the flag cleared, within two steps for each waiting request plus two.
Every run that ends in a return has cleared the flag and had its context cancelled; as long
as the consumer has not returned the flag has the value it started with. -/
theorem fwReqConsumer_cancellation :
    (∀ (c : Consumer) (req : FwRequest) (ds : Dataset) (rest : List Dataset) (p : Bool),
        c.loc = Loc.datasets req (ds :: rest) → c.cancelled = true →
        stepFwReqConsumer c p = exitConsumer c)
      ∧ (∀ (c : Consumer) (p : Bool), c.loc = Loc.top → c.cancelled = true →
          (c.e.reqsQueue = [] ∨ p = true) → stepFwReqConsumer c p = exitConsumer c)
      ∧ (∀ c : Consumer, (exitConsumer c).loc = Loc.returned
          ∧ (exitConsumer c).e.isProcessing = false
          ∧ (exitConsumer c).effects = c.effects)
      ∧ (∀ (c : Consumer) (picks : List Bool), c.loc = Loc.returned →
          runFwReqConsumer c picks = c)
      ∧ (∀ (c : Consumer) (picks : List Bool), c.cancelled = true →
          dispatched (runFwReqConsumer c picks).effects = dispatched c.effects)
      ∧ (∀ (c : Consumer) (picks : List Bool), c.cancelled = true → c.loc ≠ Loc.returned →
          2 * c.e.reqsQueue.length + 2 ≤ picks.length →
          (runFwReqConsumer c picks).loc = Loc.returned
            ∧ (runFwReqConsumer c picks).e.isProcessing = false)
      ∧ (∀ (c : Consumer) (picks : List Bool), c.loc ≠ Loc.returned →
          (runFwReqConsumer c picks).loc = Loc.returned →
          (runFwReqConsumer c picks).e.isProcessing = false ∧ c.cancelled = true)
      ∧ (∀ (c : Consumer) (picks : List Bool),
          (runFwReqConsumer c picks).loc ≠ Loc.returned →
          (runFwReqConsumer c picks).e.isProcessing = c.e.isProcessing) := by
  refine ⟨?_, ?_, ?_, ?_, ?_, ?_, ?_, ?_⟩
  · intro c req ds rest p hloc hc
    simp [stepFwReqConsumer, hloc, hc]
  · intro c p hloc hc hq
    rcases hq with hq | hq
    · simp [stepFwReqConsumer, hloc, hc, hq]
    · cases hqq : c.e.reqsQueue <;> simp [stepFwReqConsumer, hloc, hc, hq, hqq]
  · intro c
    exact ⟨rfl, rfl, rfl⟩
  · intro c picks h
    exact runFwReqConsumer_returned picks c h
  · intro c picks h
    exact (runFwReqConsumer_after_cancel picks c h).1
  · intro c picks h hloc hlen
    have h1 := (runFwReqConsumer_after_cancel picks c h).2
    have h2 := stepsToReturn_le c
    have h3 : (runFwReqConsumer c picks).loc = Loc.returned :=
      (stepsToReturn_eq_zero _).mp (by omega)
    exact ⟨h3, ((runFwReqConsumer_flag picks c hloc).2 h3).1⟩
  · intro c picks hloc hret
    exact (runFwReqConsumer_flag picks c hloc).2 hret
  · intro c picks hn
    by_cases hloc : c.loc = Loc.returned
    · rw [runFwReqConsumer_returned picks c hloc]
    · exact (runFwReqConsumer_flag picks c hloc).1 hn


/-- Witness of C14: the context is cancelled after the first of three datasets has been
dispatched; the consumer returns with the flag cleared and the two other datasets are never
dispatched. -/
theorem fwReqConsumer_cancellation_witness :
    ((runFwReqConsumer (cancel (runFwReqConsumer sampleConsumer [false, false]))
        [false, false]).loc = Loc.returned
      ∧ (runFwReqConsumer (cancel (runFwReqConsumer sampleConsumer [false, false]))
        [false, false]).e.isProcessing = false)
    ∧ dispatched (runFwReqConsumer (cancel (runFwReqConsumer sampleConsumer [false, false]))
        [false, false]).effects
      = [Effect.processDatasetRegister { Name := "nri-test", Version := "1.0" }
          (sampleRequest []).FwRequestMeta (sampleDataset "a" false)] :=
  ⟨fwReqConsumer_cancellation.2.2.2.2.2.1
      (cancel (runFwReqConsumer sampleConsumer [false, false])) [false, false] rfl
      (fun h => Loc.noConfusion h) (by decide),
    (fwReqConsumer_cancellation.2.2.2.2.1
      (cancel (runFwReqConsumer sampleConsumer [false, false])) [false, false] rfl).trans rfl⟩

end DM
